import Mathlib

/-!
# Verification of the "Who is the Spy" game-session core

Shallow embedding of `game-manager.js` (class `GameManager`) of the
who-is-the-spy repository, together with proofs and refutations of the
specification claims about it.

Modelling conventions:
* Each JS method that mutates a room in place is embedded as a pure function
  from the room state (`Game`) to the new room state plus the JS return value
  (`OpResult`).  On an early `return { error: ... }` the returned state is the
  state as mutated so far, exactly as the in-place JS code leaves it.
* `Math.random`-driven choices (word pair, imposter index, Fisher-Yates
  shuffle, generated ids) are passed in as parameters.
* The JS `votes` object (`voterId -> candidateId`) is an association list in
  insertion order; `Object.keys(votes).length` is its length and
  `Object.values(votes)` is the list of second components, which matches the
  iteration order of string-keyed JS objects.
* The JS `TypeError` that `processVotingResults` can throw (reading `.name` of
  `undefined`) is modelled by the `OpResult.crash` constructor carrying the
  state at the moment of the throw.
* Chat timestamps (`new Date()`) are not modelled; a chat entry is
  (sender, message, kind).  The fields `descriptionEndTime`/`votingEndTime`
  are always `null` in the source and are omitted.
-/

namespace Spy

/-- Player status, `player.status` in the source. -/
inductive PStatus where
  | active
  | waiting
  | disconnected
  | eliminated
deriving DecidableEq

/-- Player role; the JS `null` role is `Option.none`. -/
inductive Role where
  | civilian
  | imposter
deriving DecidableEq

/-- Winner of a game, the JS strings `'civilians'` / `'imposter'`. -/
inductive Winner where
  | civilians
  | imposter
deriving DecidableEq

/-- Kind of a chat entry, the JS `type` field. -/
inductive MsgKind where
  | system
  | player
  | description
deriving DecidableEq

/-- One entry of `game.chatHistory` (timestamp not modelled). -/
structure ChatMsg where
  sender : String
  message : String
  kind : MsgKind
deriving DecidableEq

/-- A player object as created by `createGame` / `joinGame`. -/
structure Player where
  id : String
  name : String
  role : Option Role
  word : Option String
  status : PStatus
  points : Nat
  hasDescribed : Bool
  hasVoted : Bool
  isCreator : Bool
deriving DecidableEq

/-- Room status, `game.status` in the source. -/
inductive GStatus where
  | lobby
  | playing
  | ended
deriving DecidableEq

/-- Fine-grained phase, `game.gamePhase` in the source. -/
inductive Phase where
  | lobby
  | description
  | voting
  | results
  | ended
deriving DecidableEq

/-- The `game.lastRoundResult` object built by `processVotingResults` and by
the in-game disconnect timer (fields absent in JS are `none`). -/
structure RoundResult where
  eliminatedId : Option String
  eliminatedName : Option String
  eliminatedRole : Option Role
  winner : Option Winner
  imposterName : String
  civilianWord : String
  imposterWord : String
deriving DecidableEq

/-- The room state, the `game` object of `createGame`.
`wordPair` is `(civilianWord, imposterWord)`. -/
structure Game where
  gameCode : String
  creatorId : String
  status : GStatus
  currentRound : Nat
  maxRounds : Nat
  players : List Player
  turnOrder : List String
  currentTurnIndex : Int
  chatHistory : List ChatMsg
  votes : List (String × String)
  gamePhase : Phase
  wordPair : Option (String × String)
  lastRoundResult : Option RoundResult
  imposterId : Option String
deriving DecidableEq

/-- Result of one inbound operation: the JS return value together with the
committed room state.  `crash` models an uncaught JS `TypeError`. -/
inductive OpResult where
  | ok (g : Game) (event : String)
  | err (g : Game) (msg : String)
  | crash (g : Game)
deriving DecidableEq

/-- The room state left behind by an operation (JS mutates in place, so even
an error return leaves the mutations performed before the `return`). -/
def OpResult.state : OpResult → Game
  | .ok g _ => g
  | .err g _ => g
  | .crash g => g

def OpResult.isOk : OpResult → Bool
  | .ok _ _ => true
  | _ => false

def OpResult.isErr : OpResult → Bool
  | .err _ _ => true
  | _ => false

def OpResult.isCrash : OpResult → Bool
  | .crash _ => true
  | _ => false

/-! ## Small helpers shared by the operations -/

/-- Mutating the player object returned by `players.find(...)`: replace the
first list element with the given id. -/
def updateFirst (ps : List Player) (pid : String) (f : Player → Player) :
    List Player :=
  match ps with
  | [] => []
  | p :: rest =>
      if p.id = pid then f p :: rest else p :: updateFirst rest pid f

/-- `players.splice(indexOf(p), 1)`: remove the first player with this id. -/
def removeFirst (ps : List Player) (pid : String) : List Player :=
  match ps with
  | [] => []
  | p :: rest => if p.id = pid then rest else p :: removeFirst rest pid

/-- `game.votes[k] = v` on a string-keyed JS object: overwrite in place if the
key exists, else append. -/
def setVote (votes : List (String × String)) (k v : String) :
    List (String × String) :=
  match votes with
  | [] => [(k, v)]
  | (k', v') :: rest =>
      if k' = k then (k, v) :: rest else (k', v') :: setVote rest k v

/-- `voteCounts[id] = (voteCounts[id] || 0) + 1` on a string-keyed object. -/
def bump (acc : List (String × Nat)) (id : String) : List (String × Nat) :=
  match acc with
  | [] => [(id, 1)]
  | (k, c) :: rest =>
      if k = id then (k, c + 1) :: rest else (k, c) :: bump rest id

/-- `Object.values(game.votes).forEach(id => voteCounts[id] = ... + 1)`. -/
def tallyVotes (vals : List String) : List (String × Nat) :=
  vals.foldl bump []

/-- One iteration of the max/candidates scan of `processVotingResults`. -/
def scanStep (mc : Nat × List String) (e : String × Nat) : Nat × List String :=
  if e.2 > mc.1 then (e.2, [e.1])
  else if e.2 = mc.1 then (mc.1, mc.2 ++ [e.1])
  else mc

/-- The `let max = 0; let candidates = []; for (const [id, c] of entries) ...`
scan: maximum vote count and the plurality candidate list. -/
def scanMax (es : List (String × Nat)) : Nat × List String :=
  es.foldl scanStep (0, [])

/-- The JS string of a status value (used in chat messages). -/
def statusStr : PStatus → String
  | .active => "active"
  | .waiting => "waiting"
  | .disconnected => "disconnected"
  | .eliminated => "eliminated"

/-- The JS string of a role value (`null` prints as "null"). -/
def roleStr : Option Role → String
  | none => "null"
  | some .civilian => "civilian"
  | some .imposter => "imposter"

def winnerStr : Winner → String
  | .civilians => "civilians"
  | .imposter => "imposter"

/-- `addSystemMessage` of the source. -/
def addSystemMessage (g : Game) (text : String) : Game :=
  { g with chatHistory := g.chatHistory ++ [⟨"System", text, MsgKind.system⟩] }

/-- `addChatMessage` of the source. -/
def addChatMessage (g : Game) (sender text : String) (kind : MsgKind) : Game :=
  { g with chatHistory := g.chatHistory ++ [⟨sender, text, kind⟩] }

/-- `game.wordPair ? game.wordPair.civilian : '?'` and its imposter twin. -/
def wordsOf (g : Game) : String × String :=
  match g.wordPair with
  | some wp => wp
  | none => ("?", "?")

/-- JS array indexing with a possibly negative index
(`turnOrder[i]` is `undefined`, i.e. `none`, off either end). -/
def listGetI (l : List String) (i : Int) : Option String :=
  if i < 0 then none else l.get? i.toNat

/-- `p.status === 'active' || p.status === 'disconnected'`. -/
def isActiveDisc (p : Player) : Bool :=
  p.status = PStatus.active ∨ p.status = PStatus.disconnected

/-- `players.filter(p => p.status === 'active' || p.status === 'disconnected').length`. -/
def activeDiscCount (ps : List Player) : Nat :=
  (ps.filter isActiveDisc).length

/-- The players eligible for round-1 role assignment
(`status === 'active' || 'waiting' || 'disconnected'`). -/
def participants (ps : List Player) : List Player :=
  ps.filter fun p =>
    p.status = .active ∨ p.status = .waiting ∨ p.status = .disconnected

/-- The `while (game.players.some(p => p.name === newName))` dedup loop of
`joinGame` / `updatePlayerName`; counter 0 stands for the bare base name.
Fuel `|names| + 1` always suffices (the candidates are pairwise distinct). -/
def dedupNameAux (names : List String) (base : String) :
    Nat → Nat → String
  | _, 0 => base
  | counter, fuel + 1 =>
      let cand :=
        if counter = 0 then base
        else base ++ " (" ++ toString counter ++ ")"
      if cand ∈ names then dedupNameAux names base (counter + 1) fuel
      else cand

def dedupName (names : List String) (base : String) : String :=
  dedupNameAux names base 0 (names.length + 1)

/-! ## The operations of `GameManager`

Each function mirrors one method of the source, at the level of a single room
(the `games.get(gameCode)`/`RoomNotFound` lookup happens before these run and
touches no room state).  Randomly drawn values are parameters. -/

/-- `createGame` (the constructed `game` object; `gameCode`/`playerId` are the
randomly generated values). -/
def createGameG (gameCode playerId creatorName : String) : Game where
  gameCode := gameCode
  creatorId := playerId
  status := .lobby
  currentRound := 0
  maxRounds := 5
  players := [⟨playerId, creatorName, none, none, .active, 0, false, false, true⟩]
  turnOrder := []
  currentTurnIndex := 0
  chatHistory := []
  votes := []
  gamePhase := .lobby
  wordPair := none
  lastRoundResult := none
  imposterId := none

/-- The status given to a reconnecting disconnected player in `joinGame`:
active in lobby/ended rooms, otherwise active iff the player holds a role. -/
def reconnectStatus (g : Game) (p : Player) : PStatus :=
  if g.status = .lobby ∨ g.status = .ended then .active
  else if p.role.isSome then .active else .waiting

/-- Result of `joinGame`: a reconnection (same player id) or a fresh join
(with the id assigned to the new player).  The source's
`'Cannot join game in current state'` branch is dead code: `game.status` is
always one of lobby/playing/ended, all of which pass the check. -/
inductive JoinOut where
  | reconnected (g : Game) (playerId : String)
  | joined (g : Game) (playerId : String)
deriving DecidableEq

def JoinOut.state : JoinOut → Game
  | .reconnected g _ => g
  | .joined g _ => g

def JoinOut.playerId : JoinOut → String
  | .reconnected _ pid => pid
  | .joined _ pid => pid

/-- `joinGame` at room level.  `newId` is the id `generateId()` would produce
for a brand-new player; rebinding of the connection-session to the returned
player id happens at the registry level. -/
def joinGameG (g : Game) (playerName : String) (previousPlayerId : Option String)
    (newId : String) : JoinOut :=
  let newJoin : JoinOut :=
    let status : PStatus :=
      if g.status = .lobby ∨ g.status = .ended then .active else .waiting
    let isCreator := g.players.isEmpty
    let g1 := if isCreator then { g with creatorId := newId } else g
    let finalName := dedupName (g.players.map Player.name) playerName
    let newPlayer : Player :=
      ⟨newId, finalName, none, none, status, 0, false, false, isCreator⟩
    let g2 := { g1 with players := g1.players ++ [newPlayer] }
    .joined (addSystemMessage g2 (finalName ++ " joined as " ++ statusStr status))
      newId
  match previousPlayerId with
  | none => newJoin
  | some prev =>
      match g.players.find? (fun p => p.id = prev) with
      | none => newJoin
      | some existing =>
          if existing.name = playerName then
            let ps := updateFirst g.players prev
              (fun p => { p with status := reconnectStatus g p })
            let g' :=
              if existing.status = .disconnected then { g with players := ps }
              else g
            .reconnected g' prev
          else newJoin

/-- The synchronous part of `leaveGame` on the room: both the lobby and the
in-game branch immediately set the leaving player's status to disconnected
(the rest of `leaveGame` runs in `setTimeout` callbacks, modelled below). -/
def leaveImmediateG (g : Game) (pid : String) : Game :=
  match g.players.find? (fun p => p.id = pid) with
  | none => g
  | some _ =>
      let ps := updateFirst g.players pid
        (fun p => { p with status := .disconnected })
      { g with players := ps }

/-- The lobby-disconnect grace timer body of `leaveGame`: if the player is
still disconnected, remove them from the roster and transfer the creator flag
to the first remaining player if needed.  Note the callback checks only the
player's status, never the room's current status. -/
def lobbyGraceFireG (g : Game) (pid : String) : Game :=
  match g.players.find? (fun p => p.id = pid) with
  | none => g
  | some p =>
      if p.status = .disconnected then
        let g1 := { g with players := removeFirst g.players pid }
        let g2 := addSystemMessage g1 (p.name ++ " left the lobby")
        if p.isCreator ∧ g2.players ≠ [] then
          match g2.players with
          | [] => g2
          | q :: rest =>
              addSystemMessage
                { g2 with players := { q with isCreator := true } :: rest,
                          creatorId := q.id }
                (q.name ++ " is now the host")
        else g2
      else g

/-- The scan of `advanceTurn`: first position `≥ i` in `turnOrder` holding the
id of an active-or-disconnected player.  Fuel `|turnOrder|` suffices. -/
def findEligibleAux (ps : List Player) (order : List String) :
    Nat → Nat → Option Nat
  | _, 0 => none
  | i, fuel + 1 =>
      match order.get? i with
      | none => none
      | some pid =>
          match ps.find? (fun p => p.id = pid) with
          | some p =>
              if p.status = .active ∨ p.status = .disconnected then some i
              else findEligibleAux ps order (i + 1) fuel
          | none => findEligibleAux ps order (i + 1) fuel

/-- `advanceTurn`: increment `currentTurnIndex`, scan forward for an eligible
player; if none remains, enter the voting phase with the sentinel index.
A negative starting index behaves like 0 (JS skips the `undefined` slots). -/
def advanceTurnG (g : Game) : Game :=
  let start : Nat := (g.currentTurnIndex + 1).toNat
  match findEligibleAux g.players g.turnOrder start g.turnOrder.length with
  | some i => { g with currentTurnIndex := (i : Int) }
  | none =>
      addSystemMessage
        { g with gamePhase := .voting, currentTurnIndex := -1 }
        "Voting phase started!"

/-- The round-1 role assignment loop of `startRound`: every player whose
status is active/waiting/disconnected becomes active and gets a role and word;
the participant at (0-based) position `impIdx` among them becomes the
imposter.  Returns the new player list and the imposter id if assigned. -/
def assignRolesAux (pair : String × String) (impIdx : Nat) :
    List Player → Nat → List Player × Option String
  | [], _ => ([], none)
  | p :: rest, k =>
      if p.status = .active ∨ p.status = .waiting ∨ p.status = .disconnected then
        let p' : Player :=
          if k = impIdx then
            { p with status := .active, role := some .imposter,
                     word := some pair.2, hasDescribed := false,
                     hasVoted := false }
          else
            { p with status := .active, role := some .civilian,
                     word := some pair.1, hasDescribed := false,
                     hasVoted := false }
        let r := assignRolesAux pair impIdx rest (k + 1)
        (p' :: r.1, if k = impIdx then some p.id else r.2)
      else
        let r := assignRolesAux pair impIdx rest k
        (p :: r.1, r.2)

/-- `startRound`.  `pair` is the word pair drawn on round 1, `impIdx` the
imposter index drawn on round 1, and `perm` the Fisher-Yates shuffle outcome
applied to the capable players' id list. -/
def startRoundG (g : Game) (pair : String × String) (impIdx : Nat)
    (perm : List String → List String) : Game :=
  let g1 := { g with currentRound := g.currentRound + 1,
                     gamePhase := Phase.description }
  let g2 :=
    if g1.currentRound = 1 then
      let r := assignRolesAux pair impIdx g1.players 0
      { g1 with wordPair := some pair, players := r.1,
                imposterId := match r.2 with
                  | some i => some i
                  | none => g1.imposterId }
    else g1
  let ps3 := g2.players.map
    (fun p => { p with hasDescribed := false, hasVoted := false })
  let g3 := { g2 with players := ps3 }
  let g4 := { g3 with votes := [], lastRoundResult := none }
  let capable := g4.players.filter
      (fun p => p.status = .active ∨ p.status = .disconnected)
  let g5 := { g4 with turnOrder := perm (capable.map Player.id),
                      currentTurnIndex := -1 }
  let g6 := advanceTurnG g5
  addSystemMessage g6 ("Round " ++ toString g6.currentRound ++ " started!")

/-- `startGame`: host check, then prune disconnected players (this mutation
persists even if the player-count check below fails), then start round 1.
Note the source never checks `game.status` here. -/
def startGameG (g : Game) (playerId : String) (pair : String × String)
    (impIdx : Nat) (perm : List String → List String) : OpResult :=
  if g.creatorId ≠ playerId then .err g "Only host can start game"
  else
    let pruned := g.players.filter (fun p => p.status ≠ PStatus.disconnected)
    let g1 := { g with players := pruned }
    if g1.players.length < 3 then .err g1 "Need at least 3 players"
    else
      .ok (startRoundG { g1 with status := .playing, currentRound := 0,
                                 chatHistory := [] } pair impIdx perm)
        "round-started"

/-- The tail of `processVotingResults` from the `lastRoundResult` assignment
on; `elim` is the eliminated player found again by id (the source crashes
before reaching here when `elimId` names no player). -/
def pvrFinish (g : Game) (elim : Option Player) (winner : Option Winner)
    (imposter : Option Player) : OpResult :=
  let impName : String :=
    match imposter with
    | some i => i.name
    | none => "Unknown"
  let lrr : RoundResult :=
    { eliminatedId := elim.map Player.id
      eliminatedName := elim.map Player.name
      eliminatedRole := elim.bind Player.role
      winner := winner
      imposterName := impName
      civilianWord := (wordsOf g).1
      imposterWord := (wordsOf g).2 }
  let g1 := { g with lastRoundResult := some lrr }
  match winner with
  | some w =>
      let bonus : Nat := if w = .civilians then 50 else 100
      let bps := g1.players.map (fun p =>
        if (w = .civilians ∧ p.role = some .civilian) ∨
           (w = .imposter ∧ p.role = some .imposter) then
          { p with points := p.points + bonus }
        else p)
      let g2 := { g1 with gamePhase := Phase.ended, status := GStatus.ended,
                          players := bps }
      .ok (addSystemMessage g2 ("Game Over! " ++ winnerStr w ++ " win!"))
        "round-results"
  | none => .ok g1 "round-results"

/-- The elimination step of `processVotingResults`: given the plurality
candidate list, returns (state, `elimId`, winner-so-far).  When the sole
candidate names no roster player, `elimId` is still set (the source sets it
before the existence check). -/
def pvrElim (g1 : Game) (cands : List String) :
    Game × Option String × Option Winner :=
  match cands with
  | [t] =>
      if t = "none" then
        (addSystemMessage g1 "Vote for None won! No one eliminated.",
         none, none)
      else
        match g1.players.find? (fun p => p.id = t) with
        | some p =>
            let eps := updateFirst g1.players t
              (fun q => { q with status := .eliminated })
            let g2 := { g1 with players := eps }
            (addSystemMessage g2
                (p.name ++ " was eliminated! Role: " ++ roleStr p.role),
             some t,
             if p.role = some .imposter then some .civilians else none)
        | none => (g1, some t, none)
  | _ => (addSystemMessage g1 "Tie vote! No one eliminated.", none, none)

/-- The `if (!winner)` block of `processVotingResults`: the imposter-win
re-check and, failing that, the per-round point award. -/
def pvrAward (g4 : Game) (winner0 : Option Winner) : Game × Option Winner :=
  match winner0 with
  | some w => (g4, some w)
  | none =>
      let potentialCivs := g4.players.filter (fun p =>
        p.role = some .civilian ∧
        (p.status = .active ∨ p.status = .disconnected))
      if potentialCivs.length ≤ 1 then (g4, some .imposter)
      else
        let aps := g4.players.map (fun p =>
          if p.status = .active ∨ p.status = .disconnected then
            { p with points := p.points +
                (if p.role = some .imposter then 15 else 10) }
          else p)
        ({ g4 with players := aps }, none)

/-- The body of `processVotingResults` after the tally/scan: elimination,
win checks, award, result record, bonus. -/
def pvrCore (g1 : Game) (cands : List String) : OpResult :=
  let step1 := pvrElim g1 cands
  let imposter := step1.1.players.find? (fun p => p.role = some .imposter)
  let aw := pvrAward step1.1 step1.2.2
  let g5 := aw.1
  match step1.2.1 with
  | some t =>
      match g5.players.find? (fun p => p.id = t) with
      | none => .crash g5
      | some ep => pvrFinish g5 (some ep) aw.2 imposter
  | none => pvrFinish g5 none aw.2 imposter

/-- `processVotingResults`.  Tally, plurality scan, then the core above.
Crashes (JS `TypeError`) when the sole plurality target is neither `'none'`
nor a roster player: `elimId` is set before the existence check, and
`lastRoundResult` dereferences `players.find(p => p.id === elimId).name`
unguarded. -/
def processVotingResultsG (g : Game) : OpResult :=
  let g1 := { g with gamePhase := Phase.results }
  pvrCore g1 (scanMax (tallyVotes (g1.votes.map Prod.snd))).2

/-- `submitDescription`.  The auto-reconnect of a disconnected submitter
happens before the phase/turn/described checks, so those failures commit it. -/
def submitDescriptionG (g : Game) (playerId description : String) : OpResult :=
  match g.players.find? (fun p => p.id = playerId) with
  | none => .err g "Player not found"
  | some player =>
      let rps := updateFirst g.players playerId
        (fun p => { p with status := .active })
      let g1 :=
        if player.status = .disconnected then { g with players := rps }
        else g
      if g1.gamePhase ≠ Phase.description then .err g1 "Not description phase"
      else if listGetI g1.turnOrder g1.currentTurnIndex ≠ some playerId then
        .err g1 "Not your turn"
      else if player.hasDescribed then .err g1 "Already described"
      else
        let dps := updateFirst g1.players playerId
          (fun p => { p with hasDescribed := true })
        let g2 := { g1 with players := dps }
        .ok (advanceTurnG (addChatMessage g2 player.name description
            MsgKind.description)) "turn-update"

/-- `submitVote`.  The auto-reconnect of a disconnected voter happens before
the already-voted check; the vote target is an arbitrary string (the value
`"none"` is the abstain sentinel, anything else is taken as a player id with
no validation). -/
def submitVoteG (g : Game) (voterId candidateId : String) : OpResult :=
  if g.gamePhase ≠ Phase.voting then .err g "Not in voting phase"
  else
    match g.players.find? (fun p => p.id = voterId) with
    | none => .err g "Player not found"
    | some voter =>
        let wps := updateFirst g.players voterId
          (fun p => { p with status := .active })
        let g1 :=
          if voter.status = .disconnected then { g with players := wps }
          else g
        let vStatus :=
          if voter.status = .disconnected then PStatus.active else voter.status
        if vStatus ≠ PStatus.active then .err g1 "Cannot vote"
        else if voter.hasVoted then .err g1 "Already voted"
        else
          let vps := updateFirst g1.players voterId
            (fun p => { p with hasVoted := true })
          let g2 := { g1 with votes := setVote g1.votes voterId candidateId,
                              players := vps }
          if g2.votes.length ≥ activeDiscCount g2.players then
            processVotingResultsG g2
          else .ok g2 "vote-update"

/-- `startNewGame` resets every player and the chat before restarting;
the `playerId` argument of the source is never used (no host check). -/
def resetForNewGame (g : Game) : Game :=
  let nps := g.players.map (fun p =>
    { p with status := PStatus.active, role := none, word := none,
             hasDescribed := false, hasVoted := false })
  { g with status := GStatus.playing, currentRound := 0, chatHistory := [],
           players := nps }

/-- `startNewGame` at room level. -/
def startNewGameG (g : Game) (playerId : String) (pair : String × String)
    (impIdx : Nat) (perm : List String → List String) : OpResult :=
  let _ := playerId
  .ok (startRoundG (resetForNewGame g) pair impIdx perm) "round-started"

/-- `updatePlayerName`: trim, reject empty, truncate to 15, dedup against the
other players, rename, system message. -/
def updatePlayerNameG (g : Game) (playerId newName : String) : OpResult :=
  match g.players.find? (fun p => p.id = playerId) with
  | none => .err g "Player not found"
  | some player =>
      if newName.trim.length = 0 then .err g "Name cannot be empty"
      else
        let trimmed := (newName.trim).take 15
        let others := (g.players.filter (fun p => p.id ≠ playerId)).map
          Player.name
        let finalName := dedupName others trimmed
        let ups := updateFirst g.players playerId
          (fun p => { p with name := finalName })
        let g1 := { g with players := ups }
        .ok (addSystemMessage g1
            (player.name ++ " changed their name to " ++ finalName))
          "name-updated"

/-- The `send-chat` handler of `server.js`: silently dropped during
description/voting, otherwise appended as a player message. -/
def sendChatG (g : Game) (playerId text : String) : Game :=
  if g.gamePhase = .description ∨ g.gamePhase = .voting then g
  else
    match g.players.find? (fun p => p.id = playerId) with
    | none => g
    | some p => addChatMessage g p.name text MsgKind.player

/-- The win-condition checks of the in-game grace timer (run with the state
after the turn-skip / vote-completion steps; `p` is the player object read
before those steps). -/
def inGameWinCheck (p : Player) (g3 : Game) : OpResult :=
  if p.role = some Role.imposter then
    let lrr : RoundResult :=
      { eliminatedId := none, eliminatedName := none,
        eliminatedRole := none,
        winner := some Winner.civilians,
        imposterName := p.name ++ " (Disconnected)",
        civilianWord := (wordsOf g3).1,
        imposterWord := (wordsOf g3).2 }
    let g4 := { g3 with gamePhase := Phase.ended,
                        status := GStatus.ended,
                        lastRoundResult := some lrr }
    .ok (addSystemMessage g4 "Imposter disconnected! Civilians win!")
      "update"
  else if p.role = some Role.civilian then
    let potentialCivs := g3.players.filter (fun q =>
      q.role = some Role.civilian ∧
      (q.status = .active ∨ q.status = .disconnected))
    if potentialCivs.length ≤ 1 then
      let imp := g3.players.find? (fun q => q.role = some .imposter)
      let impName : String :=
        match imp with
        | some i => i.name
        | none => "Unknown"
      let lrr : RoundResult :=
        { eliminatedId := none, eliminatedName := none,
          eliminatedRole := none,
          winner := some Winner.imposter,
          imposterName := impName,
          civilianWord := (wordsOf g3).1,
          imposterWord := (wordsOf g3).2 }
      let g4 := { g3 with gamePhase := Phase.ended,
                          status := GStatus.ended,
                          lastRoundResult := some lrr }
      .ok (addSystemMessage g4
          "Not enough civilians! Imposter wins!") "update"
    else .ok g3 "update"
  else .ok g3 "update"

/-- The in-game disconnect grace timer body of `leaveGame`: if the player is
still disconnected, log, then (only if the room status was playing at firing
time) skip their description turn, finish voting early if all eligible votes
are in, and apply the disconnect win conditions. -/
def inGameGraceFireG (g : Game) (pid : String) : OpResult :=
  match g.players.find? (fun p => p.id = pid) with
  | none => .ok g "noop"
  | some p =>
      if p.status ≠ PStatus.disconnected then .ok g "noop"
      else
        let g1 := addSystemMessage g (p.name ++ " disconnected")
        if g1.status ≠ GStatus.playing then .ok g1 "update"
        else
          let g2 :=
            if g1.gamePhase = Phase.description ∧
               listGetI g1.turnOrder g1.currentTurnIndex = some pid then
              advanceTurnG
                (addSystemMessage g1 ("Skipping " ++ p.name ++ " turn..."))
            else g1
          let r3 : OpResult :=
            if g2.gamePhase = Phase.voting then
              if g2.votes.length ≥ activeDiscCount g2.players ∧
                 0 < activeDiscCount g2.players then
                processVotingResultsG g2
              else .ok g2 "update"
            else .ok g2 "update"
          match r3 with
          | .crash gc => .crash gc
          | .err gc m => .err gc m
          | .ok g3 _ => inGameWinCheck p g3

/-! ## Committed-state transition system

One step per inbound operation or timer body.  Random draws are arbitrary
parameters, so every run of the server is a path of this relation. -/

/-- One committed transition of a room. -/
inductive Step : Game → Game → Prop where
  | join (g : Game) (name : String) (prev : Option String) (newId : String) :
      Step g (joinGameG g name prev newId).state
  | start (g : Game) (pid : String) (pair : String × String) (impIdx : Nat)
      (perm : List String → List String) :
      Step g (startGameG g pid pair impIdx perm).state
  | describe (g : Game) (pid text : String) :
      Step g (submitDescriptionG g pid text).state
  | vote (g : Game) (vid cid : String) :
      Step g (submitVoteG g vid cid).state
  | newGame (g : Game) (pid : String) (pair : String × String) (impIdx : Nat)
      (perm : List String → List String) :
      Step g (startNewGameG g pid pair impIdx perm).state
  | rename (g : Game) (pid newName : String) :
      Step g (updatePlayerNameG g pid newName).state
  | chat (g : Game) (pid text : String) : Step g (sendChatG g pid text)
  | roundTimer (g : Game) (pair : String × String) (impIdx : Nat)
      (perm : List String → List String) :
      Step g (startRoundG g pair impIdx perm)
  | leave (g : Game) (pid : String) : Step g (leaveImmediateG g pid)
  | lobbyTimer (g : Game) (pid : String) : Step g (lobbyGraceFireG g pid)
  | gameTimer (g : Game) (pid : String) :
      Step g (inGameGraceFireG g pid).state

/-- Committed room states reachable from room creation. -/
inductive Reachable : Game → Prop where
  | init (code pid name : String) : Reachable (createGameG code pid name)
  | step {g g' : Game} : Reachable g → Step g g' → Reachable g'

/-! ## Derived notions used in the statements -/

/-- The ids of the roster, in order. -/
def rosterIds (g : Game) : List String := g.players.map Player.id

/-- The room state of a forced disconnected-to-active status flip, as
committed by the auto-reconnect writes of `submitDescription`/`submitVote`
even when the operation subsequently fails. -/
def forceActive (g : Game) (pid : String) : Game :=
  let ps := updateFirst g.players pid
    (fun p => { p with status := PStatus.active })
  { g with players := ps }

/-- The roster after `startGame` prunes the disconnected players. -/
def pruneDisconnected (g : Game) : Game :=
  { g with players := g.players.filter (fun p => p.status ≠ PStatus.disconnected) }

/-- How many times `id` was voted for. -/
def countTarget (votes : List (String × String)) (id : String) : Nat :=
  (votes.map Prod.snd).count id

/-- The reconnection rewrite of `joinGame` stated as one update: the matched
player's status is rewritten by `reconnectStatus` only when it is currently
disconnected. -/
def reconnectUpdate (g : Game) (prev : String) : Game :=
  let f : Player → Player := fun q =>
    if q.status = PStatus.disconnected
    then { q with status := reconnectStatus g q } else q
  { g with players := updateFirst g.players prev f }

/-- The turn-pointer part of the spec invariant that actually holds: a valid
description-phase index and the voting-phase sentinel. -/
def TurnInv (g : Game) : Prop :=
  (g.gamePhase = Phase.description →
    0 ≤ g.currentTurnIndex ∧ g.currentTurnIndex < (g.turnOrder.length : Int)) ∧
  (g.gamePhase = Phase.voting → g.currentTurnIndex = -1)

/-! ## A concrete three-player play-through

Used as the common reachable scenario for the refutations.  The identity
permutation is one possible Fisher-Yates outcome, and index 0 one possible
imposter draw, so every state below is genuinely reachable. -/

/-- The identity permutation, one possible shuffle outcome. -/
def idPerm : List String → List String := fun l => l

/-- Alice creates a room. -/
def s0 : Game := createGameG "ROOM42" "a" "Alice"

/-- Bob joins. -/
def s1 : Game := (joinGameG s0 "Bob" none "b").state

/-- Carol joins. -/
def s2 : Game := (joinGameG s1 "Carol" none "c").state

/-- Alice (the host) starts the game: round 1, Alice drawn as imposter,
turn order Alice, Bob, Carol. -/
def s3 : Game := (startGameG s2 "a" ("apple", "pear") 0 idPerm).state

/-- The three descriptions, ending in the voting phase. -/
def s4 : Game := (submitDescriptionG s3 "a" "fruity").state

def s5 : Game := (submitDescriptionG s4 "b" "sweet").state

def s6 : Game := (submitDescriptionG s5 "c" "juicy").state

/-- Everyone votes for Carol; the third vote triggers resolution, Carol is
eliminated, only one civilian remains, the imposter wins, the game ends. -/
def s7 : Game := (submitVoteG s6 "a" "c").state

def s8 : Game := (submitVoteG s7 "b" "c").state

def s9 : Game := (submitVoteG s8 "c" "c").state

/-- Carol disconnects while the room is still in the lobby (before any
`startGame`): used against C1. -/
def w1 : Game := leaveImmediateG s2 "c"

/-- Bob disconnects mid-game (room status playing): used against C3/C4. -/
def x1 : Game := leaveImmediateG s3 "b"

/-- The host presses start again while the room is playing and Bob is
disconnected: `startGame` prunes Bob from the roster and then fails the
three-player check, leaving the pruned roster behind. -/
def x2 : OpResult := startGameG x1 "a" ("apple", "pear") 0 idPerm

/-- Two ghost votes (targets that are no player id) are accepted during the
voting phase: used against C2. -/
def y1 : Game := (submitVoteG s6 "a" "ghost").state

def y2 : Game := (submitVoteG y1 "b" "ghost").state

/-! A four-player, two-round play-through in which a civilian (Dave) is
eliminated in round 1 and the imposter (Alice) in round 2, so that the
civilians-win bonus of round 2 hits the already-eliminated Dave: used
against C6. -/

def u1 : Game := (joinGameG s0 "Bob" none "b").state

def u2 : Game := (joinGameG u1 "Carol" none "c").state

def u3 : Game := (joinGameG u2 "Dave" none "d").state

def u4 : Game := (startGameG u3 "a" ("apple", "pear") 0 idPerm).state

def u5 : Game := (submitDescriptionG u4 "a" "fruity").state

def u6 : Game := (submitDescriptionG u5 "b" "sweet").state

def u7 : Game := (submitDescriptionG u6 "c" "juicy").state

def u8 : Game := (submitDescriptionG u7 "d" "round").state

def u9 : Game := (submitVoteG u8 "a" "d").state

def u10 : Game := (submitVoteG u9 "b" "d").state

def u11 : Game := (submitVoteG u10 "c" "d").state

/-- Dave's own vote completes round 1: Dave (a civilian) is eliminated,
nobody wins, per-round points are awarded. -/
def u12 : Game := (submitVoteG u11 "d" "d").state

/-- The round-advance timer starts round 2 (its random draws are unused on
rounds after the first). -/
def u13 : Game := startRoundG u12 ("x", "y") 0 idPerm

def u14 : Game := (submitDescriptionG u13 "a" "small").state

def u15 : Game := (submitDescriptionG u14 "b" "red").state

def u16 : Game := (submitDescriptionG u15 "c" "shiny").state

def u17 : Game := (submitVoteG u16 "a" "a").state

def u18 : Game := (submitVoteG u17 "b" "a").state

/-- The state on which the round-2 vote resolution runs: `u18` with Carol's
final ballot recorded (this is exactly the intermediate state that
`submitVoteG u18 "c" "a"` hands to `processVotingResults`). -/
def u19 : Game :=
  { u18 with votes := setVote u18.votes "c" "a",
             players := updateFirst u18.players "c"
               (fun p => { p with hasVoted := true }) }

/-- `voteCounts[id] || 0`: the count stored for a key of the tally
accumulator (0 when the key is absent). -/
def lookupCount (acc : List (String × Nat)) (k : String) : Nat :=
  match acc.find? (fun e => e.1 = k) with
  | some e => e.2
  | none => 0

/-- Bool test: an active player holding the imposter role. -/
def isActiveImposter (p : Player) : Bool :=
  p.status = PStatus.active ∧ p.role = some Role.imposter

/-! Reachability of the scenario states. -/

lemma reach_s0 : Reachable s0 := Reachable.init "ROOM42" "a" "Alice"

lemma reach_s1 : Reachable s1 :=
  Reachable.step reach_s0 (Step.join s0 "Bob" none "b")

lemma reach_s2 : Reachable s2 :=
  Reachable.step reach_s1 (Step.join s1 "Carol" none "c")

lemma reach_s3 : Reachable s3 :=
  Reachable.step reach_s2 (Step.start s2 "a" ("apple", "pear") 0 idPerm)

lemma reach_s4 : Reachable s4 :=
  Reachable.step reach_s3 (Step.describe s3 "a" "fruity")

lemma reach_s5 : Reachable s5 :=
  Reachable.step reach_s4 (Step.describe s4 "b" "sweet")

lemma reach_s6 : Reachable s6 :=
  Reachable.step reach_s5 (Step.describe s5 "c" "juicy")

lemma reach_s7 : Reachable s7 :=
  Reachable.step reach_s6 (Step.vote s6 "a" "c")

lemma reach_s8 : Reachable s8 :=
  Reachable.step reach_s7 (Step.vote s7 "b" "c")

lemma reach_s9 : Reachable s9 :=
  Reachable.step reach_s8 (Step.vote s8 "c" "c")

lemma reach_w1 : Reachable w1 :=
  Reachable.step reach_s2 (Step.leave s2 "c")

lemma reach_x1 : Reachable x1 :=
  Reachable.step reach_s3 (Step.leave s3 "b")

lemma reach_x2 : Reachable x2.state :=
  Reachable.step reach_x1 (Step.start x1 "a" ("apple", "pear") 0 idPerm)

lemma reach_y1 : Reachable y1 :=
  Reachable.step reach_s6 (Step.vote s6 "a" "ghost")

lemma reach_y2 : Reachable y2 :=
  Reachable.step reach_y1 (Step.vote y1 "b" "ghost")

lemma reach_u18 : Reachable u18 :=
  Reachable.step
    (Reachable.step
      (Reachable.step
        (Reachable.step
          (Reachable.step
            (Reachable.step
              (Reachable.step
                (Reachable.step
                  (Reachable.step
                    (Reachable.step
                      (Reachable.step
                        (Reachable.step
                          (Reachable.step
                            (Reachable.step
                              (Reachable.step
                                (Reachable.step
                                  (Reachable.step reach_s0
                                    (Step.join s0 "Bob" none "b"))
                                  (Step.join u1 "Carol" none "c"))
                                (Step.join u2 "Dave" none "d"))
                              (Step.start u3 "a" ("apple", "pear") 0 idPerm))
                            (Step.describe u4 "a" "fruity"))
                          (Step.describe u5 "b" "sweet"))
                        (Step.describe u6 "c" "juicy"))
                      (Step.describe u7 "d" "round"))
                    (Step.vote u8 "a" "d"))
                  (Step.vote u9 "b" "d"))
                (Step.vote u10 "c" "d"))
              (Step.vote u11 "d" "d"))
            (Step.roundTimer u12 ("x", "y") 0 idPerm))
          (Step.describe u13 "a" "small"))
        (Step.describe u14 "b" "red"))
      (Step.describe u15 "c" "shiny"))
    (Step.vote u16 "a" "a")
    |>.step (Step.vote u17 "b" "a")

/-! ## Helper lemmas -/

lemma updateFirst_map_eq {α : Type} (m : Player → α) (f : Player → Player)
    (h : ∀ p, m (f p) = m p) (ps : List Player) (pid : String) :
    (updateFirst ps pid f).map m = ps.map m := by
  induction ps with
  | nil => rfl
  | cons p rest ih =>
      by_cases hid : p.id = pid <;> simp [updateFirst, hid, h, ih]

lemma updateFirst_id_map (f : Player → Player)
    (h : ∀ p, (f p).id = p.id) (ps : List Player) (pid : String) :
    (updateFirst ps pid f).map Player.id = ps.map Player.id :=
  updateFirst_map_eq Player.id f h ps pid

lemma updateFirst_length (f : Player → Player) (ps : List Player)
    (pid : String) : (updateFirst ps pid f).length = ps.length := by
  induction ps with
  | nil => rfl
  | cons p rest ih =>
      by_cases hid : p.id = pid <;> simp [updateFirst, hid, ih]

/-- `processVotingResults` ends in an `ok` or a `crash`, never a typed
failure. -/
lemma pvrFinish_not_err (g : Game) (elim : Option Player)
    (winner : Option Winner) (imposter : Option Player) :
    (pvrFinish g elim winner imposter).isErr = false := by
  unfold pvrFinish
  split <;> split <;> rfl

lemma pvrCore_not_err (g1 : Game) (cands : List String) :
    (pvrCore g1 cands).isErr = false := by
  simp only [pvrCore]
  split
  case _ => split <;> first | rfl | apply pvrFinish_not_err
  case _ => apply pvrFinish_not_err

lemma pvr_not_err (g : Game) :
    (processVotingResultsG g).isErr = false :=
  pvrCore_not_err _ _



/-! ## Concrete refutations -/

/-- C1, counterexample: in a reachable lobby room with two connected players
and one disconnected player, `startGame` returns a typed failure
(`Need at least 3 players`) but has already pruned the disconnected player,
so the committed room state after the failing call differs from the state
before it. -/
theorem c1_counterexample :
    (startGameG w1 "a" ("apple", "pear") 0 idPerm).isErr = true ∧
    (startGameG w1 "a" ("apple", "pear") 0 idPerm).state ≠ w1 ∧
    w1.players.length = 3 ∧
    (startGameG w1 "a" ("apple", "pear") 0 idPerm).state.players.length = 2 ∧
    Reachable w1 :=
  ⟨by decide, by decide, by decide, by decide, reach_w1⟩

/-- C2: `submitVote` accepts arbitrary target strings, and when the sole
plurality target of the completing vote is a string that is no player id (and
not the abstain sentinel), `processVotingResults` dereferences
`players.find(...)` of `undefined` and the operation crashes instead of
returning a typed failure or a well-formed result. -/
theorem c2_ghost_vote_crash :
    y2.gamePhase = Phase.voting ∧
    y2.votes = [("a", "ghost"), ("b", "ghost")] ∧
    "ghost" ∉ y2.players.map Player.id ∧
    (submitVoteG y2 "c" "none").isCrash = true ∧
    Reachable y2 :=
  ⟨by decide, by decide, by decide, by decide, reach_y2⟩

/-- C3, counterexample: in a reachable room whose status is `playing`, a
second `startGame` call (not a lobby grace-period expiry) permanently removes
the disconnected player Bob from the roster. -/
theorem c3_counterexample :
    x1.status = GStatus.playing ∧
    "b" ∈ x1.players.map Player.id ∧
    x2.isErr = true ∧
    "b" ∉ x2.state.players.map Player.id ∧
    Reachable x2.state :=
  ⟨by decide, by decide, by decide, by decide, reach_x2⟩

/-- C4, counterexample: a reachable committed state (after `startGame` fails
its player-count check on a playing room, having pruned the roster) in which
`turnOrder` still contains the id of a player absent from the roster. -/
theorem c4_counterexample :
    "b" ∈ x2.state.turnOrder ∧
    "b" ∉ x2.state.players.map Player.id ∧
    Reachable x2.state :=
  ⟨by decide, by decide, reach_x2⟩

/-- C6, counterexample: in a reachable two-round game the round-2 vote
resolution determines `civilians` as winner, and the +50 civilians bonus is
also added to Dave, a civilian who was already eliminated in round 1 (points
0 → 50), contradicting the claim that exactly the surviving civilians are
rewarded. -/
theorem c6_counterexample :
    u18.players.map (fun p => (p.id, p.status, p.points)) =
      [("a", PStatus.active, 15), ("b", PStatus.active, 10),
       ("c", PStatus.active, 10), ("d", PStatus.eliminated, 0)] ∧
    (submitVoteG u18 "c" "a").state.lastRoundResult.map RoundResult.winner =
      some (some Winner.civilians) ∧
    (submitVoteG u18 "c" "a").state.players.map (fun p => (p.id, p.points)) =
      [("a", 15), ("b", 60), ("c", 60), ("d", 50)] ∧
    Reachable u18 :=
  ⟨by decide, by decide, by decide, reach_u18⟩

/-- C8, counterexample: at the reachable committed state right after a vote
resolution that eliminated a player, the `votes` map still holds all three
ballots while only two players remain active-or-disconnected, so the claimed
bound fails at a committed state. -/
theorem c8_counterexample :
    activeDiscCount s9.players < s9.votes.length ∧ Reachable s9 :=
  ⟨by decide, reach_s9⟩

/-- C9, counterexample: Carol (status `eliminated`) reconnects with matching
previous id and name into the `ended` room; the claim says her status is set
to `active` (room status ended), but the source only rewrites the status of
`disconnected` players, so she stays `eliminated`. -/
theorem c9_counterexample :
    s9.status = GStatus.ended ∧
    (s9.players.find? (fun p => p.id = "c")).map
        (fun p => (p.name, p.status)) = some ("Carol", PStatus.eliminated) ∧
    joinGameG s9 "Carol" (some "c") "zz" = JoinOut.reconnected s9 "c" ∧
    ((joinGameG s9 "Carol" (some "c") "zz").state.players.find?
        (fun p => p.id = "c")).map Player.status ≠ some PStatus.active ∧
    Reachable s9 :=
  ⟨by decide, by decide, by decide, by decide, reach_s9⟩

/-! ## C1 (amended): what a typed failure leaves behind -/

/-- C1 (amended): every typed failure of every room operation leaves the room
state unchanged, except for exactly two write-before-check effects of the
source: `startGame` prunes disconnected players before failing the
player-count check, and `submitDescription`/`submitVote` flip a disconnected
requester to active before their phase/turn/duplicate checks fail.
`joinGame` has no room-level typed failure and `startNewGame` never fails. -/
theorem c1_amended (g : Game) (pid text vid cid newName : String)
    (pair : String × String) (impIdx : Nat)
    (perm : List String → List String) :
    (∀ g' m, startGameG g pid pair impIdx perm = OpResult.err g' m →
      g' = g ∨ g' = pruneDisconnected g) ∧
    (∀ g' m, submitDescriptionG g pid text = OpResult.err g' m →
      g' = g ∨ g' = forceActive g pid) ∧
    (∀ g' m, submitVoteG g vid cid = OpResult.err g' m →
      g' = g ∨ g' = forceActive g vid) ∧
    (∀ g' m, updatePlayerNameG g pid newName = OpResult.err g' m → g' = g) ∧
    (startNewGameG g pid pair impIdx perm).isErr = false := by
  refine ⟨?_, ?_, ?_, ?_, rfl⟩
  · intro g' m h
    simp only [startGameG] at h
    split at h
    · injection h with h1 _
      exact Or.inl h1.symm
    · split at h
      · injection h with h1 _
        exact Or.inr h1.symm
      · exact OpResult.noConfusion h
  · intro g' m h
    cases hfind : g.players.find? (fun p => p.id = pid) with
    | none =>
        simp only [submitDescriptionG, hfind] at h
        injection h with h1 _
        exact Or.inl h1.symm
    | some player =>
        simp only [submitDescriptionG, hfind] at h
        by_cases hd : player.status = PStatus.disconnected
        · simp only [hd, eq_self_iff_true, ne_eq, not_true, if_true, if_false,
            ite_true, ite_false] at h
          split at h
          · injection h with h1 _
            subst h1
            exact Or.inr rfl
          · split at h
            · injection h with h1 _
              subst h1
              exact Or.inr rfl
            · split at h
              · injection h with h1 _
                subst h1
                exact Or.inr rfl
              · exact OpResult.noConfusion h
        · simp only [hd, if_true, if_false, ite_true, ite_false] at h
          split at h
          · injection h with h1 _
            exact Or.inl h1.symm
          · split at h
            · injection h with h1 _
              exact Or.inl h1.symm
            · split at h
              · injection h with h1 _
                exact Or.inl h1.symm
              · exact OpResult.noConfusion h
  · intro g' m h
    simp only [submitVoteG] at h
    split at h
    · injection h with h1 _
      exact Or.inl h1.symm
    · split at h
      · injection h with h1 _
        exact Or.inl h1.symm
      · rename_i voter hfind
        by_cases hd : voter.status = PStatus.disconnected
        · simp only [hd, eq_self_iff_true, ne_eq, not_true, if_true, if_false,
            ite_true, ite_false] at h
          split at h
          · injection h with h1 _
            subst h1
            exact Or.inr rfl
          · split at h
            · have hne := congrArg OpResult.isErr h
              rw [pvr_not_err] at hne
              simp [OpResult.isErr] at hne
            · exact OpResult.noConfusion h
        · simp only [hd, if_true, if_false, ite_true, ite_false] at h
          split at h
          · injection h with h1 _
            exact Or.inl h1.symm
          · split at h
            · injection h with h1 _
              exact Or.inl h1.symm
            · split at h
              · have hne := congrArg OpResult.isErr h
                rw [pvr_not_err] at hne
                simp [OpResult.isErr] at hne
              · exact OpResult.noConfusion h
  · intro g' m h
    cases hfind : g.players.find? (fun p => p.id = pid) with
    | none =>
        simp only [updatePlayerNameG, hfind] at h
        injection h with h1 _
        exact h1.symm
    | some player =>
        simp only [updatePlayerNameG, hfind] at h
        split at h
        · injection h with h1 _
          exact h1.symm
        · exact OpResult.noConfusion h

/-- Witness for C1 (amended): the failing `startGame` of the counterexample
leaves exactly the pruned state. -/
theorem c1_amended_witness :
    (startGameG w1 "a" ("apple", "pear") 0 idPerm).state = w1 ∨
    (startGameG w1 "a" ("apple", "pear") 0 idPerm).state =
      pruneDisconnected w1 :=
  (c1_amended w1 "a" "t" "v" "cand" "n" ("apple", "pear") 0 idPerm).1
    ((startGameG w1 "a" ("apple", "pear") 0 idPerm).state)
    "Need at least 3 players" (by decide)

/-! ## Field-preservation lemmas for the operations -/

lemma addSystemMessage_players (g : Game) (t : String) :
    (addSystemMessage g t).players = g.players := rfl

lemma addChatMessage_players (g : Game) (s t : String) (k : MsgKind) :
    (addChatMessage g s t k).players = g.players := rfl

lemma advanceTurnG_players (g : Game) :
    (advanceTurnG g).players = g.players := by
  simp only [advanceTurnG]
  split <;> rfl

lemma map_proj_map {α : Type} (m : Player → α) (f : Player → Player)
    (h : ∀ p, m (f p) = m p) (ps : List Player) :
    (ps.map f).map m = ps.map m := by
  induction ps with
  | nil => rfl
  | cons p rest ih => simp [h, ih]

lemma assign_map_id (pair : String × String) (impIdx : Nat) (ps : List Player)
    (k : Nat) :
    (assignRolesAux pair impIdx ps k).1.map Player.id = ps.map Player.id := by
  induction ps generalizing k with
  | nil => rfl
  | cons p rest ih =>
      by_cases hp : p.status = PStatus.active ∨ p.status = PStatus.waiting ∨
          p.status = PStatus.disconnected
      · by_cases hk : k = impIdx <;>
          simp [assignRolesAux, hp, hk, ih]
      · simp [assignRolesAux, hp, ih]

lemma map_id_reset (ps : List Player) :
    (ps.map (fun p =>
      { p with hasDescribed := false, hasVoted := false })).map Player.id =
      ps.map Player.id :=
  map_proj_map Player.id
    (fun p => { p with hasDescribed := false, hasVoted := false })
    (fun _ => rfl) ps

lemma startRound_rosterIds (g : Game) (pair : String × String) (impIdx : Nat)
    (perm : List String → List String) :
    rosterIds (startRoundG g pair impIdx perm) = rosterIds g := by
  unfold startRoundG rosterIds
  rw [addSystemMessage_players, advanceTurnG_players]
  simp only
  split
  · rw [map_id_reset, assign_map_id]
  · rw [map_id_reset]

lemma activeDiscCount_map (f : Player → Player)
    (h : ∀ p, (f p).status = p.status) (ps : List Player) :
    activeDiscCount (ps.map f) = activeDiscCount ps := by
  induction ps with
  | nil => rfl
  | cons p rest ih =>
      have h1 : isActiveDisc (f p) = isActiveDisc p := by
        simp [isActiveDisc, h]
      simp only [activeDiscCount, List.map_cons, List.filter_cons, h1]
        at ih ⊢
      cases hb : isActiveDisc p <;> simp [hb, ih]

lemma activeDiscCount_updateFirst_le (ps : List Player) (pid : String)
    (f : Player → Player) (h : ∀ p, (f p).status = PStatus.eliminated) :
    activeDiscCount (updateFirst ps pid f) ≤ activeDiscCount ps := by
  induction ps with
  | nil => exact Nat.le_refl _
  | cons p rest ih =>
      unfold updateFirst
      by_cases hid : p.id = pid
      · rw [if_pos hid]
        have h1 : isActiveDisc (f p) = false := by simp [isActiveDisc, h]
        simp only [activeDiscCount, List.filter_cons, h1] at ih ⊢
        cases hb : isActiveDisc p <;> simp [hb]
      · rw [if_neg hid]
        simp only [activeDiscCount, List.filter_cons] at ih ⊢
        cases hb : isActiveDisc p <;> simp [hb] <;> omega

/-- The fields of the result of `pvrFinish` needed below. -/
lemma pvrFinish_fields (g : Game) (elim : Option Player)
    (winner : Option Winner) (imposter : Option Player) :
    (pvrFinish g elim winner imposter).state.votes = g.votes ∧
    rosterIds (pvrFinish g elim winner imposter).state = rosterIds g ∧
    ((pvrFinish g elim winner imposter).state.gamePhase = g.gamePhase ∨
      (pvrFinish g elim winner imposter).state.gamePhase = Phase.ended) ∧
    activeDiscCount (pvrFinish g elim winner imposter).state.players =
      activeDiscCount g.players ∧
    (pvrFinish g elim winner imposter).state.players.map Player.status =
      g.players.map Player.status := by
  unfold pvrFinish
  split <;> split
  · exact ⟨rfl, map_proj_map Player.id _ (fun p => by split <;> rfl) g.players,
      Or.inr rfl, activeDiscCount_map _ (fun p => by split <;> rfl) g.players,
      map_proj_map Player.status _ (fun p => by split <;> rfl) g.players⟩
  · exact ⟨rfl, rfl, Or.inl rfl, rfl, rfl⟩
  · exact ⟨rfl, map_proj_map Player.id _ (fun p => by split <;> rfl) g.players,
      Or.inr rfl, activeDiscCount_map _ (fun p => by split <;> rfl) g.players,
      map_proj_map Player.status _ (fun p => by split <;> rfl) g.players⟩
  · exact ⟨rfl, rfl, Or.inl rfl, rfl, rfl⟩

/-- Fields of the elimination-stage state. -/
lemma pvrElim_fields (g1 : Game) (cands : List String) :
    (pvrElim g1 cands).1.votes = g1.votes ∧
    rosterIds (pvrElim g1 cands).1 = rosterIds g1 ∧
    (pvrElim g1 cands).1.gamePhase = g1.gamePhase ∧
    activeDiscCount (pvrElim g1 cands).1.players ≤
      activeDiscCount g1.players := by
  simp only [pvrElim]
  split
  · split
    · exact ⟨rfl, rfl, rfl, Nat.le_refl _⟩
    · split
      · refine ⟨rfl, ?_, rfl, ?_⟩
        · exact updateFirst_id_map
            (fun q => { q with status := PStatus.eliminated })
            (fun p => rfl) g1.players _
        · exact activeDiscCount_updateFirst_le g1.players _
            (fun q => { q with status := PStatus.eliminated }) (fun p => rfl)
      · exact ⟨rfl, rfl, rfl, Nat.le_refl _⟩
  · exact ⟨rfl, rfl, rfl, Nat.le_refl _⟩

/-- Fields of the award-stage state. -/
lemma pvrAward_fields (g4 : Game) (winner0 : Option Winner) :
    (pvrAward g4 winner0).1.votes = g4.votes ∧
    rosterIds (pvrAward g4 winner0).1 = rosterIds g4 ∧
    (pvrAward g4 winner0).1.gamePhase = g4.gamePhase ∧
    activeDiscCount (pvrAward g4 winner0).1.players =
      activeDiscCount g4.players ∧
    (pvrAward g4 winner0).1.players.map Player.status =
      g4.players.map Player.status := by
  simp only [pvrAward]
  split
  · exact ⟨rfl, rfl, rfl, rfl, rfl⟩
  · split
    · exact ⟨rfl, rfl, rfl, rfl, rfl⟩
    · refine ⟨rfl, ?_, rfl, ?_, ?_⟩
      · exact map_proj_map Player.id _ (fun p => by split <;> rfl) _
      · exact activeDiscCount_map _ (fun p => by split <;> rfl) _
      · exact map_proj_map Player.status _ (fun p => by split <;> rfl) _

/-- Transport of `pvrFinish_fields` along the facts about the state it is
applied to. -/
lemma pvr_leaf {g0 gX : Game} (elim : Option Player) (winner : Option Winner)
    (imposter : Option Player)
    (hv : gX.votes = g0.votes) (hi : rosterIds gX = rosterIds g0)
    (hp : gX.gamePhase = g0.gamePhase)
    (hc : activeDiscCount gX.players ≤ activeDiscCount g0.players) :
    (pvrFinish gX elim winner imposter).state.votes = g0.votes ∧
    rosterIds (pvrFinish gX elim winner imposter).state = rosterIds g0 ∧
    ((pvrFinish gX elim winner imposter).state.gamePhase = g0.gamePhase ∨
      (pvrFinish gX elim winner imposter).state.gamePhase = Phase.ended) ∧
    activeDiscCount (pvrFinish gX elim winner imposter).state.players ≤
      activeDiscCount g0.players := by
  obtain ⟨h1, h2, h3, h4, _⟩ := pvrFinish_fields gX elim winner imposter
  refine ⟨h1.trans hv, h2.trans hi, ?_, le_trans (Nat.le_of_eq h4) hc⟩
  rcases h3 with h3 | h3
  · exact Or.inl (h3.trans hp)
  · exact Or.inr h3

/-- Fields of the state committed by the post-scan body (all branches,
including the crash path). -/
lemma pvrCore_fields (g1 : Game) (cands : List String) :
    (pvrCore g1 cands).state.votes = g1.votes ∧
    rosterIds (pvrCore g1 cands).state = rosterIds g1 ∧
    ((pvrCore g1 cands).state.gamePhase = g1.gamePhase ∨
      (pvrCore g1 cands).state.gamePhase = Phase.ended) ∧
    activeDiscCount (pvrCore g1 cands).state.players ≤
      activeDiscCount g1.players := by
  obtain ⟨e1, e2, e3, e4⟩ := pvrElim_fields g1 cands
  obtain ⟨a1, a2, a3, a4, _⟩ :=
    pvrAward_fields (pvrElim g1 cands).1 (pvrElim g1 cands).2.2
  simp only [pvrCore]
  split
  · split
    · exact ⟨a1.trans e1, a2.trans e2, Or.inl (a3.trans e3),
        le_trans (le_of_eq a4) e4⟩
    · exact pvr_leaf _ _ _ (a1.trans e1) (a2.trans e2) (a3.trans e3)
        (le_trans (le_of_eq a4) e4)
  · exact pvr_leaf _ _ _ (a1.trans e1) (a2.trans e2) (a3.trans e3)
      (le_trans (le_of_eq a4) e4)

/-- Fields of the state committed by `processVotingResults` (also on the
crash path). -/
lemma pvr_fields (g : Game) :
    (processVotingResultsG g).state.votes = g.votes ∧
    rosterIds (processVotingResultsG g).state = rosterIds g ∧
    ((processVotingResultsG g).state.gamePhase = Phase.results ∨
      (processVotingResultsG g).state.gamePhase = Phase.ended) ∧
    activeDiscCount (processVotingResultsG g).state.players ≤
      activeDiscCount g.players :=
  pvrCore_fields { g with gamePhase := Phase.results } _

/-! ## Roster-membership lemmas (C3) -/

lemma uf_ids_statusf (ps : List Player) (pid : String)
    (stf : Player → PStatus) :
    (updateFirst ps pid (fun p => { p with status := stf p })).map Player.id =
      ps.map Player.id :=
  updateFirst_id_map (fun p => { p with status := stf p }) (fun _ => rfl) ps pid

lemma uf_ids_desc (ps : List Player) (pid : String) :
    (updateFirst ps pid
      (fun p => { p with hasDescribed := true })).map Player.id =
      ps.map Player.id :=
  updateFirst_id_map (fun p => { p with hasDescribed := true }) (fun _ => rfl)
    ps pid

lemma uf_ids_voted (ps : List Player) (pid : String) :
    (updateFirst ps pid (fun p => { p with hasVoted := true })).map Player.id =
      ps.map Player.id :=
  updateFirst_id_map (fun p => { p with hasVoted := true }) (fun _ => rfl)
    ps pid

lemma uf_ids_name (ps : List Player) (pid n : String) :
    (updateFirst ps pid (fun p => { p with name := n })).map Player.id =
      ps.map Player.id :=
  updateFirst_id_map (fun p => { p with name := n }) (fun _ => rfl) ps pid

lemma forceActive_rosterIds (g : Game) (pid : String) :
    rosterIds (forceActive g pid) = rosterIds g :=
  uf_ids_statusf g.players pid (fun _ => PStatus.active)

lemma join_rosterIds (g : Game) (name : String) (prev : Option String)
    (newId : String) :
    rosterIds (joinGameG g name prev newId).state = rosterIds g ∨
    rosterIds (joinGameG g name prev newId).state = rosterIds g ++ [newId] := by
  have hjoined : ∀ gj : Game, gj = g ∨ gj = { g with creatorId := newId } →
      ∀ p : Player, p.id = newId →
      (gj.players ++ [p]).map Player.id = rosterIds g ++ [newId] := by
    intro gj hgj p hp
    rw [List.map_append]
    rcases hgj with h | h <;> subst h <;> simp [rosterIds, hp]
  simp only [joinGameG]
  split
  · -- no previous id: new join
    right
    simp only [JoinOut.state, rosterIds, addSystemMessage_players]
    split
    · exact hjoined _ (Or.inr rfl) _ rfl
    · exact hjoined _ (Or.inl rfl) _ rfl
  · split
    · -- previous id names no player: new join
      right
      simp only [JoinOut.state, rosterIds, addSystemMessage_players]
      split
      · exact hjoined _ (Or.inr rfl) _ rfl
      · exact hjoined _ (Or.inl rfl) _ rfl
    · split
      · -- reconnection
        left
        simp only [JoinOut.state, rosterIds]
        split
        · exact uf_ids_statusf g.players _ (reconnectStatus g)
        · rfl
      · -- name mismatch: new join
        right
        simp only [JoinOut.state, rosterIds, addSystemMessage_players]
        split
        · exact hjoined _ (Or.inr rfl) _ rfl
        · exact hjoined _ (Or.inl rfl) _ rfl

lemma describe_rosterIds (g : Game) (pid text : String) :
    rosterIds (submitDescriptionG g pid text).state = rosterIds g := by
  simp only [submitDescriptionG]
  split
  · rfl
  · split
    · -- disconnected requester: the auto-reconnect flip is committed
      split
      · exact uf_ids_statusf g.players pid (fun _ => PStatus.active)
      · split
        · exact uf_ids_statusf g.players pid (fun _ => PStatus.active)
        · split
          · exact uf_ids_statusf g.players pid (fun _ => PStatus.active)
          · simp only [OpResult.state, rosterIds, addSystemMessage_players,
              advanceTurnG_players, addChatMessage_players]
            exact (uf_ids_desc _ _).trans
              (uf_ids_statusf g.players pid (fun _ => PStatus.active))
    · -- connected requester
      split
      · rfl
      · split
        · rfl
        · split
          · rfl
          · simp only [OpResult.state, rosterIds, addSystemMessage_players,
              advanceTurnG_players, addChatMessage_players]
            exact uf_ids_desc _ _

lemma roster_addMsg (g : Game) (t : String) :
    rosterIds (addSystemMessage g t) = rosterIds g := rfl

lemma roster_advance (g : Game) :
    rosterIds (advanceTurnG g) = rosterIds g := by
  unfold rosterIds
  rw [advanceTurnG_players]

lemma vote_rosterIds (g : Game) (vid cid : String) :
    rosterIds (submitVoteG g vid cid).state = rosterIds g := by
  simp only [submitVoteG]
  split
  · rfl
  · split
    · rfl
    · split
      · -- disconnected voter: flip committed
        split
        · exact uf_ids_statusf g.players vid (fun _ => PStatus.active)
        · split
          · exact uf_ids_statusf g.players vid (fun _ => PStatus.active)
          · split
            · exact ((pvr_fields _).2.1).trans
                ((uf_ids_voted _ _).trans
                  (uf_ids_statusf g.players vid (fun _ => PStatus.active)))
            · exact (uf_ids_voted _ _).trans
                (uf_ids_statusf g.players vid (fun _ => PStatus.active))
      · -- connected voter
        split
        · rfl
        · split
          · rfl
          · split
            · exact ((pvr_fields _).2.1).trans (uf_ids_voted _ _)
            · exact uf_ids_voted _ _

lemma rename_rosterIds (g : Game) (pid newName : String) :
    rosterIds (updatePlayerNameG g pid newName).state = rosterIds g := by
  simp only [updatePlayerNameG]
  split
  · rfl
  · split
    · rfl
    · exact uf_ids_name _ _ _

lemma chat_rosterIds (g : Game) (pid text : String) :
    rosterIds (sendChatG g pid text) = rosterIds g := by
  simp only [sendChatG]
  split
  · rfl
  · split
    · rfl
    · rfl

lemma leave_rosterIds (g : Game) (pid : String) :
    rosterIds (leaveImmediateG g pid) = rosterIds g := by
  simp only [leaveImmediateG]
  split
  · rfl
  · exact uf_ids_statusf g.players pid (fun _ => PStatus.disconnected)

lemma newGame_rosterIds (g : Game) (pid : String) (pair : String × String)
    (impIdx : Nat) (perm : List String → List String) :
    rosterIds (startNewGameG g pid pair impIdx perm).state = rosterIds g := by
  refine (startRound_rosterIds _ _ _ _).trans ?_
  exact map_proj_map Player.id
    (fun p => { p with status := PStatus.active, role := none, word := none,
                       hasDescribed := false, hasVoted := false })
    (fun _ => rfl) g.players

lemma startGame_rosterIds (g : Game) (pid : String) (pair : String × String)
    (impIdx : Nat) (perm : List String → List String) :
    rosterIds (startGameG g pid pair impIdx perm).state = rosterIds g ∨
    rosterIds (startGameG g pid pair impIdx perm).state =
      rosterIds (pruneDisconnected g) := by
  simp only [startGameG]
  split
  · exact Or.inl rfl
  · split
    · exact Or.inr rfl
    · exact Or.inr (startRound_rosterIds _ _ _ _)

lemma inGameWinCheck_players (p : Player) (g3 : Game) :
    (inGameWinCheck p g3).state.players = g3.players := by
  simp only [inGameWinCheck]
  split
  · rfl
  · split
    · split <;> rfl
    · rfl

lemma ingame_rosterIds (g : Game) (pid : String) :
    rosterIds (inGameGraceFireG g pid).state = rosterIds g := by
  have hwin : ∀ p g3, rosterIds (inGameWinCheck p g3).state = rosterIds g3 :=
    fun p g3 => by unfold rosterIds; rw [inGameWinCheck_players]
  have hpvr : ∀ (gx : Game) (r : OpResult), processVotingResultsG gx = r →
      rosterIds r.state = rosterIds gx := fun gx r hr => by
    rw [← hr]; exact (pvr_fields gx).2.1
  have hg2 : ∀ (c : Prop) (inst : Decidable c) (ga : Game) (t : String),
      rosterIds (if c then advanceTurnG (addSystemMessage ga t) else ga) =
        rosterIds ga := by
    intro c inst ga t
    split
    · exact roster_advance _
    · rfl
  have hcase : ∀ (g2x : Game) (r : OpResult),
      (if g2x.gamePhase = Phase.voting then
        (if g2x.votes.length ≥ activeDiscCount g2x.players ∧
            0 < activeDiscCount g2x.players then
          processVotingResultsG g2x
        else OpResult.ok g2x "update")
      else OpResult.ok g2x "update") = r →
      rosterIds r.state = rosterIds g2x := by
    intro g2x r hr
    split at hr
    · split at hr
      · exact hpvr _ _ hr
      · rw [← hr]
        rfl
    · rw [← hr]
      rfl
  simp only [inGameGraceFireG]
  split
  · rfl
  · split
    · rfl
    · split
      · rfl
      · split
        · rename_i gc heq
          exact (hcase _ _ heq).trans (hg2 _ _ _ _)
        · rename_i gc m heq
          exact (hcase _ _ heq).trans (hg2 _ _ _ _)
        · rename_i g3 e heq
          exact ((hwin _ _).trans (hcase _ _ heq)).trans (hg2 _ _ _ _)

lemma lobby_rosterIds (g : Game) (pid : String) :
    (∀ p, g.players.find? (fun q => q.id = pid) = some p →
      p.status ≠ PStatus.disconnected → lobbyGraceFireG g pid = g) ∧
    (rosterIds (lobbyGraceFireG g pid) = rosterIds g ∨
      rosterIds (lobbyGraceFireG g pid) =
        (removeFirst g.players pid).map Player.id) := by
  constructor
  · intro p hf hst
    simp only [lobbyGraceFireG, hf]
    rw [if_neg hst]
  · simp only [lobbyGraceFireG]
    split
    · exact Or.inl rfl
    · split
      · right
        split
        · split
          · rfl
          · rename_i heq
            simp only [rosterIds, addSystemMessage_players] at heq ⊢
            rw [heq]
            rfl
        · rfl
      · exact Or.inl rfl

/-- C3 (amended): a player is removed from the roster only by `startGame`
pruning disconnected players (in any room status) or by the lobby grace timer
firing on a still-disconnected player; every other operation and timer body
preserves the roster ids exactly, and `joinGame` only ever extends them. -/
theorem c3_amended (g : Game) (name pid text vid cid newName newId : String)
    (prev : Option String) (pair : String × String) (impIdx : Nat)
    (perm : List String → List String) :
    (∀ i, i ∈ rosterIds g → i ∈ rosterIds (joinGameG g name prev newId).state) ∧
    rosterIds (submitDescriptionG g pid text).state = rosterIds g ∧
    rosterIds (submitVoteG g vid cid).state = rosterIds g ∧
    rosterIds (startNewGameG g pid pair impIdx perm).state = rosterIds g ∧
    rosterIds (updatePlayerNameG g pid newName).state = rosterIds g ∧
    rosterIds (sendChatG g pid text) = rosterIds g ∧
    rosterIds (startRoundG g pair impIdx perm) = rosterIds g ∧
    rosterIds (leaveImmediateG g pid) = rosterIds g ∧
    rosterIds (inGameGraceFireG g pid).state = rosterIds g ∧
    (rosterIds (startGameG g pid pair impIdx perm).state = rosterIds g ∨
      rosterIds (startGameG g pid pair impIdx perm).state =
        rosterIds (pruneDisconnected g)) ∧
    (∀ p, g.players.find? (fun q => q.id = pid) = some p →
      p.status ≠ PStatus.disconnected → lobbyGraceFireG g pid = g) ∧
    (rosterIds (lobbyGraceFireG g pid) = rosterIds g ∨
      rosterIds (lobbyGraceFireG g pid) =
        (removeFirst g.players pid).map Player.id) := by
  refine ⟨?_, describe_rosterIds g pid text, vote_rosterIds g vid cid,
    newGame_rosterIds g pid pair impIdx perm, rename_rosterIds g pid newName,
    chat_rosterIds g pid text, startRound_rosterIds g pair impIdx perm,
    leave_rosterIds g pid, ingame_rosterIds g pid,
    startGame_rosterIds g pid pair impIdx perm,
    (lobby_rosterIds g pid).1, (lobby_rosterIds g pid).2⟩
  intro i hi
  rcases join_rosterIds g name prev newId with h | h <;> rw [h]
  · exact hi
  · exact List.mem_append_left _ hi

/-- Witness for C3 (amended): joining a fourth player keeps Alice in the
roster, and the lobby grace timer is a no-op on the connected Alice. -/
theorem c3_amended_witness :
    "a" ∈ rosterIds (joinGameG s2 "Dan" none "d").state ∧
    lobbyGraceFireG s2 "a" = s2 :=
  ⟨(c3_amended s2 "Dan" "a" "t" "v" "cand" "n" "d" none ("x", "y") 0
      idPerm).1 "a" (by decide),
   (c3_amended s2 "Dan" "a" "t" "v" "cand" "n" "d" none ("x", "y") 0
      idPerm).2.2.2.2.2.2.2.2.2.2.1
     ⟨"a", "Alice", none, none, PStatus.active, 0, false, false, true⟩
     (by decide) (by decide)⟩

/-! ## C8 (amended): what `submitVote` guarantees -/

lemma pvrFinish_shape (g : Game) (elim : Option Player)
    (winner : Option Winner) (imposter : Option Player) :
    pvrFinish g elim winner imposter =
      OpResult.ok (pvrFinish g elim winner imposter).state "round-results" := by
  unfold pvrFinish
  split <;> split <;> rfl

lemma pvr_ok_event (g r : Game) (e : String)
    (h : processVotingResultsG g = OpResult.ok r e) : e = "round-results" := by
  simp only [processVotingResultsG, pvrCore] at h
  split at h
  · split at h
    · exact OpResult.noConfusion h
    · rw [pvrFinish_shape] at h
      injection h with _ h2
      exact h2.symm
  · rw [pvrFinish_shape] at h
    injection h with _ h2
    exact h2.symm

/-- C8 (amended): a failing `submitVote` does not touch the votes; a
successful vote that does not trigger resolution commits a voting-phase state
whose vote count is strictly below the active-or-disconnected count; and the
vote triggers resolution exactly when the recorded votes reach that count —
after resolution the committed state has left the voting phase and its votes
are at least the (possibly shrunken) count. -/
theorem c8_amended (g : Game) (vid cid : String) :
    (∀ g' m, submitVoteG g vid cid = OpResult.err g' m → g'.votes = g.votes) ∧
    (∀ g', submitVoteG g vid cid = OpResult.ok g' "vote-update" →
      g'.gamePhase = Phase.voting ∧
      g'.votes.length < activeDiscCount g'.players) ∧
    (∀ g', submitVoteG g vid cid = OpResult.ok g' "round-results" →
      g'.gamePhase ≠ Phase.voting ∧
      activeDiscCount g'.players ≤ g'.votes.length) ∧
    (∀ gc, submitVoteG g vid cid = OpResult.crash gc →
      activeDiscCount gc.players ≤ gc.votes.length) := by
  have main : ∀ (gx : Game) (n c : Nat), gx.votes.length = n →
      activeDiscCount gx.players = c →
      (∀ g', (if n ≥ c then processVotingResultsG gx
        else OpResult.ok gx "vote-update") = OpResult.ok g' "vote-update" →
        g'.gamePhase = gx.gamePhase ∧
        g'.votes.length < activeDiscCount g'.players) ∧
      (∀ g', (if n ≥ c then processVotingResultsG gx
        else OpResult.ok gx "vote-update") = OpResult.ok g' "round-results" →
        g'.gamePhase ≠ Phase.voting ∧
        activeDiscCount g'.players ≤ g'.votes.length) ∧
      (∀ gc, (if n ≥ c then processVotingResultsG gx
        else OpResult.ok gx "vote-update") = OpResult.crash gc →
        activeDiscCount gc.players ≤ gc.votes.length) := by
    intro gx n c hn hc
    refine ⟨?_, ?_, ?_⟩
    · intro g' h
      split at h
      · exact absurd (pvr_ok_event _ _ _ h) (by decide)
      · injection h with h1 _
        subst h1
        refine ⟨rfl, ?_⟩
        rw [hn, hc]
        omega
    · intro g' h
      split at h
      · rename_i htrig
        obtain ⟨f1, _, f3, f4⟩ := pvr_fields gx
        rw [h] at f1 f3 f4
        simp only [OpResult.state] at f1 f3 f4
        rw [hc] at f4
        constructor
        · rcases f3 with f3 | f3 <;> rw [f3] <;> decide
        · rw [f1, hn]
          omega
      · injection h with _ h2
        exact absurd h2.symm (by decide)
    · intro gc h
      split at h
      · rename_i htrig
        obtain ⟨f1, _, _, f4⟩ := pvr_fields gx
        rw [h] at f1 f4
        simp only [OpResult.state] at f1 f4
        rw [hc] at f4
        rw [f1, hn]
        omega
      · exact OpResult.noConfusion h
  simp only [submitVoteG]
  split
  · exact ⟨fun g' m h => by injection h with h1 _; exact h1 ▸ rfl,
      fun g' h => OpResult.noConfusion h,
      fun g' h => OpResult.noConfusion h,
      fun gc h => OpResult.noConfusion h⟩
  · rename_i hphase
    have hph : g.gamePhase = Phase.voting := not_not.mp hphase
    split
    · exact ⟨fun g' m h => by injection h with h1 _; exact h1 ▸ rfl,
        fun g' h => OpResult.noConfusion h,
        fun g' h => OpResult.noConfusion h,
        fun gc h => OpResult.noConfusion h⟩
    · rename_i voter hfind
      by_cases hd : voter.status = PStatus.disconnected
      · simp only [hd, eq_self_iff_true, ne_eq, not_true, if_true, if_false,
          ite_true, ite_false]
        refine ⟨?_, ?_, ?_, ?_⟩
        · intro g' m h
          split at h
          · injection h with h1 _
            subst h1
            rfl
          · split at h
            · have hne := congrArg OpResult.isErr h
              rw [pvr_not_err] at hne
              simp [OpResult.isErr] at hne
            · exact OpResult.noConfusion h
        · intro g' h
          split at h
          · exact OpResult.noConfusion h
          · obtain ⟨hp, hl⟩ := (main _ _ _ (by rfl) (by rfl)).1 _ h
            exact ⟨hp.trans hph, hl⟩
        · intro g' h
          split at h
          · exact OpResult.noConfusion h
          · exact (main _ _ _ (by rfl) (by rfl)).2.1 _ h
        · intro gc h
          split at h
          · exact OpResult.noConfusion h
          · exact (main _ _ _ (by rfl) (by rfl)).2.2 _ h
      · simp only [hd, if_true, if_false, ite_true, ite_false]
        refine ⟨?_, ?_, ?_, ?_⟩
        · intro g' m h
          split at h
          · injection h with h1 _
            subst h1
            rfl
          · split at h
            · injection h with h1 _
              subst h1
              rfl
            · split at h
              · have hne := congrArg OpResult.isErr h
                rw [pvr_not_err] at hne
                simp [OpResult.isErr] at hne
              · exact OpResult.noConfusion h
        · intro g' h
          split at h
          · exact OpResult.noConfusion h
          · split at h
            · exact OpResult.noConfusion h
            · obtain ⟨hp, hl⟩ := (main _ _ _ (by rfl) (by rfl)).1 _ h
              exact ⟨hp.trans hph, hl⟩
        · intro g' h
          split at h
          · exact OpResult.noConfusion h
          · split at h
            · exact OpResult.noConfusion h
            · exact (main _ _ _ (by rfl) (by rfl)).2.1 _ h
        · intro gc h
          split at h
          · exact OpResult.noConfusion h
          · split at h
            · exact OpResult.noConfusion h
            · exact (main _ _ _ (by rfl) (by rfl)).2.2 _ h

/-- Witness for C8 (amended): Alice's first vote in the scenario commits a
voting-phase state one ballot short of the three eligible voters. -/
theorem c8_amended_witness :
    s7.gamePhase = Phase.voting ∧
    s7.votes.length < activeDiscCount s7.players :=
  (c8_amended s6 "a" "c").2.1 s7 (by decide)

/-! ## C9 (amended): joinGame reconnection semantics -/

lemma updateFirst_congr (ps : List Player) (pid : String)
    (f1 f2 : Player → Player) (ex : Player)
    (hfind : ps.find? (fun p => p.id = pid) = some ex)
    (h : f1 ex = f2 ex) :
    updateFirst ps pid f1 = updateFirst ps pid f2 := by
  induction ps with
  | nil => rfl
  | cons p rest ih =>
      by_cases hid : p.id = pid
      · have hex : p = ex := by
          rw [List.find?_cons_of_pos _ (by simp [hid])] at hfind
          exact Option.some.inj hfind
        subst hex
        simp [updateFirst, hid, h]
      · rw [List.find?_cons_of_neg _ (by simp [hid])] at hfind
        simp [updateFirst, hid, ih hfind]

lemma updateFirst_self (ps : List Player) (pid : String)
    (f : Player → Player) (ex : Player)
    (hfind : ps.find? (fun p => p.id = pid) = some ex)
    (h : f ex = ex) :
    updateFirst ps pid f = ps := by
  induction ps with
  | nil => rfl
  | cons p rest ih =>
      by_cases hid : p.id = pid
      · have hex : p = ex := by
          rw [List.find?_cons_of_pos _ (by simp [hid])] at hfind
          exact Option.some.inj hfind
        subst hex
        simp [updateFirst, hid, h]
      · rw [List.find?_cons_of_neg _ (by simp [hid])] at hfind
        simp [updateFirst, hid, ih hfind]

/-- C9 (amended): a join with a previous id naming an existing player whose
stored name matches is a reconnection: no new player is created, the session
is rebound to that id, and the player's status is rewritten by the
lobby/ended-active-else-role rule **only if it is currently disconnected**
(an eliminated or active player keeps their status).  A mismatched name is a
brand-new join appending exactly one player. -/
theorem c9_amended (g : Game) (playerName prev newId : String) (ex : Player)
    (hfind : g.players.find? (fun p => p.id = prev) = some ex) :
    (ex.name = playerName →
      joinGameG g playerName (some prev) newId =
        JoinOut.reconnected (reconnectUpdate g prev) prev ∧
      rosterIds (joinGameG g playerName (some prev) newId).state =
        rosterIds g) ∧
    (ex.name ≠ playerName →
      ∃ g', joinGameG g playerName (some prev) newId =
          JoinOut.joined g' newId ∧
        g'.players.length = g.players.length + 1) := by
  constructor
  · intro hname
    have heq : joinGameG g playerName (some prev) newId =
        JoinOut.reconnected (reconnectUpdate g prev) prev := by
      simp only [joinGameG, reconnectUpdate, hfind, hname, if_pos]
      by_cases hd : ex.status = PStatus.disconnected
      · rw [if_pos hd]
        have := updateFirst_congr g.players prev
          (fun q => { q with status := reconnectStatus g q })
          (fun q => if q.status = PStatus.disconnected
            then { q with status := reconnectStatus g q } else q)
          ex hfind (by simp [hd])
        rw [this]
      · rw [if_neg hd]
        have := updateFirst_self g.players prev
          (fun q => if q.status = PStatus.disconnected
            then { q with status := reconnectStatus g q } else q)
          ex hfind (by simp [hd])
        rw [this]
    refine ⟨heq, ?_⟩
    rw [heq]
    exact updateFirst_id_map
      (fun q => if q.status = PStatus.disconnected
        then { q with status := reconnectStatus g q } else q)
      (fun q => by by_cases hq : q.status = PStatus.disconnected <;>
        simp [hq]) g.players prev
  · intro hname
    simp only [joinGameG, hfind]
    rw [if_neg hname]
    refine ⟨_, rfl, ?_⟩
    simp only [addSystemMessage_players]
    split <;> simp

/-- Witness for C9 (amended): Carol reconnecting into the lobby state with
her id and name is recognised, and a join under a fresh name appends a
player. -/
theorem c9_amended_witness :
    rosterIds (joinGameG w1 "Carol" (some "c") "z1").state = rosterIds w1 ∧
    ∃ g', joinGameG w1 "Dora" (some "c") "z2" = JoinOut.joined g' "z2" ∧
      g'.players.length = w1.players.length + 1 :=
  ⟨((c9_amended w1 "Carol" "c" "z1"
      ⟨"c", "Carol", none, none, PStatus.disconnected, 0, false, false, false⟩
      (by decide)).1 (by decide)).2,
   (c9_amended w1 "Dora" "c" "z2"
      ⟨"c", "Carol", none, none, PStatus.disconnected, 0, false, false, false⟩
      (by decide)).2 (by decide)⟩

/-! ## C6 (amended): the bonus step -/

lemma pvrFinish_none (gX : Game) (elim : Option Player)
    (imposter : Option Player) (g' : Game) (e : String)
    (h : pvrFinish gX elim none imposter = OpResult.ok g' e) :
    g'.lastRoundResult.map RoundResult.winner = some none := by
  simp only [pvrFinish] at h
  split at h
  · injection h with h1 _
    rw [← h1]
    rfl
  · injection h with h1 _
    rw [← h1]
    rfl

lemma map_points_bonus (w : Winner) (bonus : Nat) (ps : List Player) :
    (ps.map (fun p =>
      if (w = Winner.civilians ∧ p.role = some Role.civilian) ∨
         (w = Winner.imposter ∧ p.role = some Role.imposter) then
        { p with points := p.points + bonus }
      else p)).map Player.points =
    ps.map (fun p => p.points +
      (if (w = Winner.civilians ∧ p.role = some Role.civilian) ∨
          (w = Winner.imposter ∧ p.role = some Role.imposter) then
        bonus else 0)) := by
  induction ps with
  | nil => rfl
  | cons p rest ih =>
      simp only [List.map_cons, ih]
      split <;> simp

lemma pvrFinish_some (gX : Game) (elim : Option Player) (w : Winner)
    (imposter : Option Player) (g' : Game) (e : String)
    (h : pvrFinish gX elim (some w) imposter = OpResult.ok g' e) :
    g'.lastRoundResult.map RoundResult.winner = some (some w) ∧
    g'.players.map Player.points = gX.players.map (fun p => p.points +
      (if (w = Winner.civilians ∧ p.role = some Role.civilian) ∨
          (w = Winner.imposter ∧ p.role = some Role.imposter) then
        (if w = Winner.civilians then 50 else 100) else 0)) ∧
    g'.players.map Player.role = gX.players.map Player.role := by
  simp only [pvrFinish] at h
  split at h
  · rename_i hw
    injection h with h1 _
    subst h1
    refine ⟨rfl, ?_, ?_⟩
    · rw [if_pos hw]
      exact map_points_bonus w 50 gX.players
    · exact map_proj_map Player.role _ (fun p => by split <;> rfl) gX.players
  · rename_i hw
    injection h with h1 _
    subst h1
    refine ⟨rfl, ?_, ?_⟩
    · rw [if_neg hw]
      exact map_points_bonus w 100 gX.players
    · exact map_proj_map Player.role _ (fun p => by split <;> rfl) gX.players

lemma pvrAward_of_some (g4 : Game) (w0 : Option Winner) (w : Winner)
    (h : (pvrAward g4 w0).2 = some w) : (pvrAward g4 w0).1 = g4 := by
  cases w0 with
  | some w2 => rfl
  | none =>
      simp only [pvrAward] at h ⊢
      split at h
      · rename_i hc
        rw [if_pos hc]
      · exact Option.noConfusion h

lemma pvrElim_map_pr (g1 : Game) (cands : List String) :
    (pvrElim g1 cands).1.players.map (fun p => (p.points, p.role)) =
      g1.players.map (fun p => (p.points, p.role)) := by
  simp only [pvrElim]
  split
  · split
    · rfl
    · split
      · exact updateFirst_map_eq (fun p => (p.points, p.role))
          (fun q => { q with status := PStatus.eliminated }) (fun p => rfl)
          g1.players _
      · rfl
  · rfl

/-- C6 (amended): when a vote resolution completes with a winner, the bonus
step adds 50 to every player with role civilian (civilians win) or 100 to
every player with role imposter (imposter win) — by role only, regardless of
status, so eliminated civilians are also rewarded — and no other player's
points change; roles are untouched. -/
theorem c6_amended (g g' : Game) (e : String) (w : Winner)
    (h1 : processVotingResultsG g = OpResult.ok g' e)
    (h2 : g'.lastRoundResult.map RoundResult.winner = some (some w)) :
    g'.players.map Player.points = g.players.map (fun p => p.points +
      (if (w = Winner.civilians ∧ p.role = some Role.civilian) ∨
          (w = Winner.imposter ∧ p.role = some Role.imposter) then
        (if w = Winner.civilians then 50 else 100) else 0)) ∧
    g'.players.map Player.role = g.players.map Player.role := by
  have transport : ∀ g5 : Game,
      g5.players.map (fun p => (p.points, p.role)) =
        g.players.map (fun p => (p.points, p.role)) →
      g'.players.map Player.points = g5.players.map (fun p => p.points +
        (if (w = Winner.civilians ∧ p.role = some Role.civilian) ∨
            (w = Winner.imposter ∧ p.role = some Role.imposter) then
          (if w = Winner.civilians then 50 else 100) else 0)) →
      g'.players.map Player.role = g5.players.map Player.role →
      g'.players.map Player.points = g.players.map (fun p => p.points +
        (if (w = Winner.civilians ∧ p.role = some Role.civilian) ∨
            (w = Winner.imposter ∧ p.role = some Role.imposter) then
          (if w = Winner.civilians then 50 else 100) else 0)) ∧
      g'.players.map Player.role = g.players.map Player.role := by
    intro g5 hm hpts hrl
    have hφ := congrArg (List.map (fun x : Nat × Option Role => x.1 +
      (if (w = Winner.civilians ∧ x.2 = some Role.civilian) ∨
          (w = Winner.imposter ∧ x.2 = some Role.imposter) then
        (if w = Winner.civilians then 50 else 100) else 0))) hm
    have hσ := congrArg (List.map (fun x : Nat × Option Role => x.2)) hm
    rw [List.map_map, List.map_map] at hφ hσ
    constructor
    · rw [hpts]
      exact hφ
    · rw [hrl]
      exact hσ
  simp only [processVotingResultsG, pvrCore] at h1
  rcases haw : (pvrAward (pvrElim { g with gamePhase := Phase.results }
      (scanMax (tallyVotes (g.votes.map Prod.snd))).2).1
      (pvrElim { g with gamePhase := Phase.results }
      (scanMax (tallyVotes (g.votes.map Prod.snd))).2).2.2).2 with _ | w'
  · -- the resolution carried no winner: contradicts h2
    rw [haw] at h1
    split at h1
    · split at h1
      · exact absurd h1 (fun hh => OpResult.noConfusion hh)
      · have := pvrFinish_none _ _ _ _ _ h1
        rw [this] at h2
        exact absurd (Option.some.inj h2) (fun hh => Option.noConfusion hh)
    · have := pvrFinish_none _ _ _ _ _ h1
      rw [this] at h2
      exact absurd (Option.some.inj h2) (fun hh => Option.noConfusion hh)
  · -- winner present: no per-round award ran, bonus by role only
    rw [haw] at h1
    have hg5 := pvrAward_of_some _ _ _ haw
    rw [hg5] at h1
    have hm : (pvrElim { g with gamePhase := Phase.results }
        (scanMax (tallyVotes (g.votes.map Prod.snd))).2).1.players.map
          (fun p => (p.points, p.role)) =
        g.players.map (fun p => (p.points, p.role)) :=
      pvrElim_map_pr { g with gamePhase := Phase.results } _
    split at h1
    · split at h1
      · exact absurd h1 (fun hh => OpResult.noConfusion hh)
      · obtain ⟨hw, hpts, hrl⟩ := pvrFinish_some _ _ _ _ _ _ h1
        rw [hw] at h2
        have hww : w' = w := Option.some.inj (Option.some.inj h2)
        subst hww
        exact transport _ hm hpts hrl
    · obtain ⟨hw, hpts, hrl⟩ := pvrFinish_some _ _ _ _ _ _ h1
      rw [hw] at h2
      have hww : w' = w := Option.some.inj (Option.some.inj h2)
      subst hww
      exact transport _ hm hpts hrl

set_option maxHeartbeats 1000000 in
/-- Witness for C6 (amended): the winning round-2 resolution of the
four-player play-through rewards every civilian, including the eliminated
Dave. -/
theorem c6_amended_witness :
    (processVotingResultsG u19).state.players.map Player.points =
      u19.players.map (fun p => p.points +
        (if (Winner.civilians = Winner.civilians ∧
              p.role = some Role.civilian) ∨
            (Winner.civilians = Winner.imposter ∧
              p.role = some Role.imposter) then
          (if Winner.civilians = Winner.civilians then 50 else 100)
        else 0)) :=
  (c6_amended u19 ((processVotingResultsG u19).state) "round-results"
    Winner.civilians (by decide) (by decide)).1

/-! ## C10: startNewGame -/

lemma advance_round (g : Game) :
    (advanceTurnG g).currentRound = g.currentRound := by
  simp only [advanceTurnG]
  split <;> rfl

lemma advance_status (g : Game) :
    (advanceTurnG g).status = g.status := by
  simp only [advanceTurnG]
  split <;> rfl

lemma advance_chat (g : Game) :
    (advanceTurnG g).chatHistory = g.chatHistory ∨
    (advanceTurnG g).chatHistory = g.chatHistory ++
      [⟨"System", "Voting phase started!", MsgKind.system⟩] := by
  simp only [advanceTurnG]
  split
  · exact Or.inl rfl
  · exact Or.inr rfl

lemma assign_all_active (pair : String × String) (impIdx : Nat)
    (ps : List Player) (k : Nat) (h : ∀ p ∈ ps, p.status = PStatus.active) :
    ∀ q ∈ (assignRolesAux pair impIdx ps k).1, q.status = PStatus.active := by
  induction ps generalizing k with
  | nil => intro q hq; exact absurd hq (by simp [assignRolesAux])
  | cons p rest ih =>
      have hp : p.status = PStatus.active := h p (by simp)
      have hrest : ∀ p ∈ rest, p.status = PStatus.active :=
        fun r hr => h r (List.mem_cons_of_mem _ hr)
      intro q hq
      simp only [assignRolesAux, hp] at hq
      rw [if_pos (Or.inl trivial)] at hq
      rcases List.mem_cons.mp hq with hq | hq
      · subst hq
        split <;> rfl
      · exact ih (k + 1) hrest q hq

lemma startRound_round (g : Game) (pair : String × String) (impIdx : Nat)
    (perm : List String → List String) :
    (startRoundG g pair impIdx perm).currentRound = g.currentRound + 1 := by
  simp only [startRoundG, addSystemMessage]
  rw [advance_round]
  split <;> rfl

lemma startRound_status (g : Game) (pair : String × String) (impIdx : Nat)
    (perm : List String → List String) :
    (startRoundG g pair impIdx perm).status = g.status := by
  simp only [startRoundG, addSystemMessage]
  rw [advance_status]
  split <;> rfl

lemma chat_shape (g5 : Game) (h : g5.chatHistory = []) (txt txt2 : String)
    (ht : txt = txt2) :
    ∃ pre, (addSystemMessage (advanceTurnG g5) txt).chatHistory =
      pre ++ [⟨"System", txt2, MsgKind.system⟩] ∧
      (pre = [] ∨
        pre = [⟨"System", "Voting phase started!", MsgKind.system⟩]) := by
  subst ht
  rcases advance_chat g5 with h2 | h2
  · exact ⟨[], by simp [addSystemMessage, h2, h], Or.inl rfl⟩
  · exact ⟨[⟨"System", "Voting phase started!", MsgKind.system⟩],
      by simp [addSystemMessage, h2, h], Or.inr rfl⟩

/-- C10: `startNewGame` ignores its requester argument entirely (no host or
membership check), never fails on an existing room, resets every player to
active with cleared flags, clears the chat and starts round 1. -/
theorem c10_startNewGame (g : Game) (pid1 pid2 : String)
    (pair : String × String) (impIdx : Nat)
    (perm : List String → List String) :
    startNewGameG g pid1 pair impIdx perm =
      startNewGameG g pid2 pair impIdx perm ∧
    (startNewGameG g pid1 pair impIdx perm).isErr = false ∧
    startNewGameG g pid1 pair impIdx perm =
      OpResult.ok (startRoundG (resetForNewGame g) pair impIdx perm)
        "round-started" ∧
    (startNewGameG g pid1 pair impIdx perm).state.currentRound = 1 ∧
    (startNewGameG g pid1 pair impIdx perm).state.status = GStatus.playing ∧
    (∀ p ∈ (startNewGameG g pid1 pair impIdx perm).state.players,
      p.status = PStatus.active ∧ p.hasDescribed = false ∧
        p.hasVoted = false) ∧
    (∃ pre, (startNewGameG g pid1 pair impIdx perm).state.chatHistory =
      pre ++ [⟨"System", "Round 1 started!", MsgKind.system⟩] ∧
      (pre = [] ∨
        pre = [⟨"System", "Voting phase started!", MsgKind.system⟩])) := by
  refine ⟨rfl, rfl, rfl, ?_, ?_, ?_, ?_⟩
  · show (startRoundG (resetForNewGame g) pair impIdx perm).currentRound = 1
    rw [startRound_round]
    rfl
  · show (startRoundG (resetForNewGame g) pair impIdx perm).status =
      GStatus.playing
    rw [startRound_status]
    rfl
  · intro p hp
    have hp2 : p ∈ (startRoundG (resetForNewGame g) pair impIdx
        perm).players := hp
    simp only [startRoundG, addSystemMessage] at hp2
    rw [advanceTurnG_players] at hp2
    simp only [List.mem_map] at hp2
    obtain ⟨q, hq, rfl⟩ := hp2
    refine ⟨?_, rfl, rfl⟩
    show q.status = PStatus.active
    have hc : (resetForNewGame g).currentRound + 1 = 1 := rfl
    rw [if_pos hc] at hq
    refine assign_all_active pair impIdx _ 0 ?_ q hq
    intro r hr
    simp only [resetForNewGame, List.mem_map] at hr
    obtain ⟨r0, _, rfl⟩ := hr
    rfl
  · show ∃ pre, (startRoundG (resetForNewGame g) pair impIdx
        perm).chatHistory = _ ∧ _
    simp only [startRoundG]
    refine chat_shape _ ?_ _ _ ?_
    · rfl
    · rw [advance_round]
      show ("Round " ++ toString (1 : Nat) ++ " started!" : String) =
        "Round 1 started!"
      decide

theorem c10_startNewGame_witness :
    (startNewGameG s0 "zzz" ("apple", "pear") 0 idPerm).state.currentRound =
      1 :=
  (c10_startNewGame s0 "zzz" "a" ("apple", "pear") 0 idPerm).2.2.2.1

/-! ## C7: role assignment -/

lemma advance_wordPair (g : Game) :
    (advanceTurnG g).wordPair = g.wordPair := by
  simp only [advanceTurnG]
  split <;> rfl

lemma startRound_players (g : Game) (pair : String × String) (impIdx : Nat)
    (perm : List String → List String) :
    (startRoundG g pair impIdx perm).players =
      (if g.currentRound + 1 = 1 then
          (assignRolesAux pair impIdx g.players 0).1
        else g.players).map
        (fun p => { p with hasDescribed := false, hasVoted := false }) := by
  simp only [startRoundG, addSystemMessage]
  rw [advanceTurnG_players]
  split <;> rfl

lemma startRound_wordPair (g : Game) (pair : String × String) (impIdx : Nat)
    (perm : List String → List String) :
    (startRoundG g pair impIdx perm).wordPair =
      if g.currentRound + 1 = 1 then some pair else g.wordPair := by
  simp only [startRoundG, addSystemMessage]
  rw [advance_wordPair]
  split <;> rfl

lemma nonpart_not_active {p : Player}
    (hp : ¬(p.status = PStatus.active ∨ p.status = PStatus.waiting ∨
      p.status = PStatus.disconnected)) : p.status ≠ PStatus.active :=
  fun h => hp (Or.inl h)

lemma assign_active_count (pair : String × String) (impIdx : Nat)
    (ps : List Player) : ∀ k : Nat,
    (((assignRolesAux pair impIdx ps k).1).filter
      (fun p => p.status = PStatus.active)).length =
    (participants ps).length := by
  induction ps with
  | nil => intro k; rfl
  | cons p rest ih =>
      intro k
      by_cases hp : p.status = PStatus.active ∨ p.status = PStatus.waiting ∨
          p.status = PStatus.disconnected
      · have hpart : participants (p :: rest) = p :: participants rest := by
          rcases hp with h | h | h <;> simp [participants, List.filter_cons, h]
        rw [hpart]
        simp only [assignRolesAux, if_pos hp]
        by_cases hk : k = impIdx
        · rw [if_pos hk]
          simp [List.filter_cons, ih (k + 1)]
        · rw [if_neg hk]
          simp [List.filter_cons, ih (k + 1)]
      · push_neg at hp
        obtain ⟨ha, hb, hc⟩ := hp
        have hpart : participants (p :: rest) = participants rest := by
          simp [participants, List.filter_cons, ha, hb, hc]
        rw [hpart]
        simp only [assignRolesAux, if_neg (by simp [ha, hb, hc] :
          ¬(p.status = PStatus.active ∨ p.status = PStatus.waiting ∨
            p.status = PStatus.disconnected))]
        simp [List.filter_cons, ha, ih k]

lemma isActiveImposter_imp (p : Player) (pair : String × String) :
    isActiveImposter ⟨p.id, p.name, some Role.imposter, some pair.2,
      PStatus.active, p.points, false, false, p.isCreator⟩ = true := rfl

lemma isActiveImposter_civ (p : Player) (pair : String × String) :
    isActiveImposter ⟨p.id, p.name, some Role.civilian, some pair.1,
      PStatus.active, p.points, false, false, p.isCreator⟩ = false := rfl

lemma assign_no_imposter (pair : String × String) (impIdx : Nat)
    (ps : List Player) : ∀ k : Nat, impIdx < k →
    ∀ q ∈ (assignRolesAux pair impIdx ps k).1, q.status = PStatus.active →
      ¬ q.role = some Role.imposter := by
  induction ps with
  | nil => intro k _ q hq; exact absurd hq (by simp [assignRolesAux])
  | cons p rest ih =>
      intro k hlt q hq hact
      by_cases hp : p.status = PStatus.active ∨ p.status = PStatus.waiting ∨
          p.status = PStatus.disconnected
      · simp only [assignRolesAux, if_pos hp] at hq
        have hk : ¬ k = impIdx := by omega
        rw [if_neg hk] at hq
        rcases List.mem_cons.mp hq with hq | hq
        · subst hq; simp
        · exact ih (k + 1) (by omega) q hq hact
      · simp only [assignRolesAux, if_neg hp] at hq
        rcases List.mem_cons.mp hq with hq | hq
        · subst hq
          push_neg at hp
          exact absurd hact hp.1
        · exact ih k hlt q hq hact

lemma assign_imposter_none (pair : String × String) (impIdx : Nat)
    (ps : List Player) (k : Nat) (h : impIdx < k) :
    (((assignRolesAux pair impIdx ps k).1).filter
      isActiveImposter).length = 0 := by
  rw [List.length_eq_zero, List.filter_eq_nil_iff]
  intro q hq hq2
  simp only [isActiveImposter, decide_eq_true_eq] at hq2
  exact assign_no_imposter pair impIdx ps k h q hq hq2.1 hq2.2

lemma assign_imposter_one (pair : String × String) (impIdx : Nat)
    (ps : List Player) : ∀ k : Nat, k ≤ impIdx →
    impIdx < k + (participants ps).length →
    (((assignRolesAux pair impIdx ps k).1).filter
      isActiveImposter).length = 1 := by
  induction ps with
  | nil => intro k hle hlt; simp [participants] at hlt; omega
  | cons p rest ih =>
      intro k hle hlt
      by_cases hp : p.status = PStatus.active ∨ p.status = PStatus.waiting ∨
          p.status = PStatus.disconnected
      · have hpart : participants (p :: rest) = p :: participants rest := by
          rcases hp with h | h | h <;> simp [participants, List.filter_cons, h]
        rw [hpart] at hlt
        simp only [assignRolesAux, if_pos hp]
        by_cases hk : k = impIdx
        · rw [if_pos hk]
          rw [List.filter_cons, if_pos (by rw [isActiveImposter_imp])]
          rw [List.length_cons,
            assign_imposter_none pair impIdx rest (k + 1) (by omega)]
        · rw [if_neg hk]
          rw [List.filter_cons, if_neg (by rw [isActiveImposter_civ]; simp)]
          exact ih (k + 1) (by omega)
            (by simp only [List.length_cons] at hlt; omega)
      · push_neg at hp
        obtain ⟨ha, hb, hc⟩ := hp
        have hpart : participants (p :: rest) = participants rest := by
          simp [participants, List.filter_cons, ha, hb, hc]
        rw [hpart] at hlt
        simp only [assignRolesAux, if_neg (by simp [ha, hb, hc] :
          ¬(p.status = PStatus.active ∨ p.status = PStatus.waiting ∨
            p.status = PStatus.disconnected))]
        rw [List.filter_cons,
          if_neg (by simp [isActiveImposter, ha])]
        exact ih k hle hlt

lemma assign_roles_words (pair : String × String) (impIdx : Nat)
    (ps : List Player) : ∀ k : Nat,
    ∀ q ∈ (assignRolesAux pair impIdx ps k).1, q.status = PStatus.active →
      (q.role = some Role.imposter ∧ q.word = some pair.2) ∨
      (q.role = some Role.civilian ∧ q.word = some pair.1) := by
  induction ps with
  | nil => intro k q hq; exact absurd hq (by simp [assignRolesAux])
  | cons p rest ih =>
      intro k q hq hact
      by_cases hp : p.status = PStatus.active ∨ p.status = PStatus.waiting ∨
          p.status = PStatus.disconnected
      · simp only [assignRolesAux, if_pos hp] at hq
        rcases List.mem_cons.mp hq with hq | hq
        · subst hq
          by_cases hk : k = impIdx
          · rw [if_pos hk]
            exact Or.inl ⟨rfl, rfl⟩
          · rw [if_neg hk]
            exact Or.inr ⟨rfl, rfl⟩
        · exact ih (k + 1) q hq hact
      · simp only [assignRolesAux, if_neg hp] at hq
        rcases List.mem_cons.mp hq with hq | hq
        · subst hq
          push_neg at hp
          exact absurd hact hp.1
        · exact ih k q hq hact

lemma filter_status_map_flags (l : List Player) :
    ((l.map (fun p => { p with hasDescribed := false, hasVoted := false })).filter
      (fun p => p.status = PStatus.active)).length =
    (l.filter (fun p => p.status = PStatus.active)).length := by
  induction l with
  | nil => rfl
  | cons p rest ih =>
      simp only [List.map_cons, List.filter_cons]
      by_cases h : p.status = PStatus.active
      · simp [h, ih]
      · simp [h, ih]

lemma filter_imp_map_flags (l : List Player) :
    ((l.map (fun p => { p with hasDescribed := false, hasVoted := false })).filter isActiveImposter).length =
    (l.filter isActiveImposter).length := by
  induction l with
  | nil => rfl
  | cons p rest ih =>
      simp only [List.map_cons, List.filter_cons]
      have hsame : isActiveImposter ⟨p.id, p.name, p.role, p.word, p.status,
          p.points, false, false, p.isCreator⟩ = isActiveImposter p := rfl
      rw [hsame]
      cases h : isActiveImposter p <;> simp [h, ih]

lemma rw_map_flags (l : List Player) :
    (l.map (fun p => { p with hasDescribed := false, hasVoted := false })).map (fun p => (p.role, p.word)) =
    l.map (fun p => (p.role, p.word)) := by
  induction l with
  | nil => rfl
  | cons p rest ih => simp only [List.map_cons, ih]

/-- C7: on a round-start that makes the round number 1 (with the imposter
index drawn below the participant count, as `Math.random` guarantees),
the post state has exactly as many active players as there were
participants, exactly one active player holds the imposter role, every
active player holds either the imposter role with the imposter word or the
civilian role with the civilian word, and the word pair is recorded; on
every later round-start (round number at least 1 before the call) every
player's role and word and the room's wordPair are left unchanged. -/
theorem c7_role_assignment (g : Game) (pair : String × String) (impIdx : Nat)
    (perm : List String → List String) :
    (g.currentRound = 0 → impIdx < (participants g.players).length →
      (((startRoundG g pair impIdx perm).players.filter
          (fun p => p.status = PStatus.active)).length =
        (participants g.players).length ∧
      ((startRoundG g pair impIdx perm).players.filter
          isActiveImposter).length = 1 ∧
      (∀ q ∈ (startRoundG g pair impIdx perm).players,
        q.status = PStatus.active →
          (q.role = some Role.imposter ∧ q.word = some pair.2) ∨
          (q.role = some Role.civilian ∧ q.word = some pair.1)) ∧
      (startRoundG g pair impIdx perm).wordPair = some pair)) ∧
    (1 ≤ g.currentRound →
      ((startRoundG g pair impIdx perm).players.map
          (fun p => (p.role, p.word)) =
        g.players.map (fun p => (p.role, p.word)) ∧
      (startRoundG g pair impIdx perm).wordPair = g.wordPair)) := by
  constructor
  · intro h0 hi
    have hps := startRound_players g pair impIdx perm
    rw [if_pos (by rw [h0] : g.currentRound + 1 = 1)] at hps
    refine ⟨?_, ?_, ?_, ?_⟩
    · rw [hps, filter_status_map_flags,
        assign_active_count pair impIdx g.players 0]
    · rw [hps, filter_imp_map_flags,
        assign_imposter_one pair impIdx g.players 0 (Nat.zero_le _)
          (by omega)]
    · intro q hq hact
      rw [hps] at hq
      simp only [List.mem_map] at hq
      obtain ⟨q0, hq0, rfl⟩ := hq
      exact assign_roles_words pair impIdx g.players 0 q0 hq0 hact
    · rw [startRound_wordPair, if_pos (by rw [h0] : g.currentRound + 1 = 1)]
  · intro h1
    have hps := startRound_players g pair impIdx perm
    rw [if_neg (by omega : ¬ g.currentRound + 1 = 1)] at hps
    constructor
    · rw [hps, rw_map_flags]
    · rw [startRound_wordPair, if_neg (by omega : ¬ g.currentRound + 1 = 1)]

theorem c7_role_assignment_witness :
    ((startRoundG s2 ("apple", "pear") 0 idPerm).players.filter
      isActiveImposter).length = 1 :=
  ((c7_role_assignment s2 ("apple", "pear") 0 idPerm).1 rfl
    (by decide)).2.1

/-! ## C5: vote tally and plurality -/

lemma lookup_bump_self (id : String) :
    ∀ acc : List (String × Nat),
      lookupCount (bump acc id) id = lookupCount acc id + 1 := by
  intro acc
  induction acc with
  | nil => simp [bump, lookupCount]
  | cons e rest ih =>
      obtain ⟨k0, c0⟩ := e
      by_cases h : k0 = id
      · subst h
        simp [bump, lookupCount]
      · simp only [bump, if_neg h]
        simp only [lookupCount, List.find?_cons] at ih ⊢
        simp only [h, decide_False, cond_false]
        exact ih

lemma lookup_bump_other (id k : String) (hk : ¬ k = id) :
    ∀ acc : List (String × Nat),
      lookupCount (bump acc id) k = lookupCount acc k := by
  intro acc
  have hk2 : ¬ id = k := fun h => hk h.symm
  induction acc with
  | nil => simp [bump, lookupCount, hk2]
  | cons e rest ih =>
      obtain ⟨k0, c0⟩ := e
      by_cases h : k0 = id
      · subst h
        simp [bump, lookupCount, List.find?_cons, hk2]
      · simp only [bump, if_neg h]
        simp only [lookupCount, List.find?_cons] at ih ⊢
        by_cases h2 : k0 = k
        · simp [h2]
        · simpa [h2] using ih

lemma bump_keys (id : String) :
    ∀ acc : List (String × Nat),
      (bump acc id).map Prod.fst =
        if id ∈ acc.map Prod.fst then acc.map Prod.fst
        else acc.map Prod.fst ++ [id] := by
  intro acc
  induction acc with
  | nil => simp [bump]
  | cons e rest ih =>
      obtain ⟨k0, c0⟩ := e
      by_cases h : k0 = id
      · subst h
        simp [bump]
      · simp only [bump, if_neg h, List.map_cons, ih]
        have hne : ¬ id = k0 := fun h2 => h h2.symm
        by_cases h2 : id ∈ rest.map Prod.fst
        · simp [h2, hne]
        · simp [h2, hne]

lemma bump_nodup (id : String) (acc : List (String × Nat))
    (h : (acc.map Prod.fst).Nodup) :
    ((bump acc id).map Prod.fst).Nodup := by
  rw [bump_keys]
  by_cases h2 : id ∈ acc.map Prod.fst
  · rw [if_pos h2]; exact h
  · rw [if_neg h2]
    simp [List.nodup_append, h, h2]

lemma tally_lookup (vs : List String) :
    ∀ (acc : List (String × Nat)) (k : String),
      lookupCount (vs.foldl bump acc) k = lookupCount acc k + vs.count k := by
  induction vs with
  | nil => intro acc k; simp
  | cons v vs ih =>
      intro acc k
      simp only [List.foldl_cons, ih (bump acc v) k, List.count_cons]
      by_cases h : k = v
      · subst h
        rw [lookup_bump_self]
        simp only [beq_self_eq_true, if_pos]
        omega
      · rw [lookup_bump_other v k h acc,
          beq_eq_false_iff_ne.mpr (fun h2 => h h2.symm)]
        simp

lemma tally_keys_mem (vs : List String) :
    ∀ (acc : List (String × Nat)) (k : String),
      k ∈ (vs.foldl bump acc).map Prod.fst ↔
        (k ∈ acc.map Prod.fst ∨ k ∈ vs) := by
  induction vs with
  | nil => intro acc k; simp
  | cons v vs ih =>
      intro acc k
      simp only [List.foldl_cons, ih (bump acc v) k, bump_keys]
      by_cases h2 : v ∈ acc.map Prod.fst
      · rw [if_pos h2]
        constructor
        · rintro (h | h)
          · exact Or.inl h
          · exact Or.inr (List.mem_cons_of_mem _ h)
        · rintro (h | h)
          · exact Or.inl h
          · rcases List.mem_cons.mp h with h | h
            · subst h; exact Or.inl h2
            · exact Or.inr h
      · rw [if_neg h2]
        simp only [List.mem_append, List.mem_singleton, List.mem_cons]
        tauto

lemma tally_nodup (vs : List String) :
    ∀ acc : List (String × Nat), (acc.map Prod.fst).Nodup →
      ((vs.foldl bump acc).map Prod.fst).Nodup := by
  induction vs with
  | nil => intro acc h; exact h
  | cons v vs ih =>
      intro acc h
      exact ih (bump acc v) (bump_nodup v acc h)

lemma lookup_of_mem :
    ∀ acc : List (String × Nat), (acc.map Prod.fst).Nodup →
      ∀ e ∈ acc, e.2 = lookupCount acc e.1 := by
  intro acc
  induction acc with
  | nil => intro _ e he; exact absurd he (List.not_mem_nil e)
  | cons a rest ih =>
      obtain ⟨k0, c0⟩ := a
      intro hnd e he
      simp only [List.map_cons, List.nodup_cons] at hnd
      rcases List.mem_cons.mp he with he | he
      · subst he
        simp [lookupCount, List.find?_cons]
      · have hne : ¬ e.1 = k0 := by
          intro h
          exact hnd.1 (h ▸ List.mem_map_of_mem Prod.fst he)
        have hne2 : ¬ k0 = e.1 := fun h => hne h.symm
        simp only [lookupCount, List.find?_cons, hne2, decide_False,
          cond_false]
        simpa [lookupCount] using ih hnd.2 e he

lemma mem_of_key :
    ∀ acc : List (String × Nat), ∀ k : String, k ∈ acc.map Prod.fst →
      (k, lookupCount acc k) ∈ acc := by
  intro acc
  induction acc with
  | nil => intro k hk; exact absurd hk (by simp)
  | cons a rest ih =>
      obtain ⟨k0, c0⟩ := a
      intro k hk
      by_cases h : k0 = k
      · subst h
        simp [lookupCount, List.find?_cons]
      · have h2 : ¬ k = k0 := fun h2 => h h2.symm
        rcases List.mem_cons.mp hk with hk | hk
        · exact absurd hk h2
        · simp only [lookupCount, List.find?_cons, h, decide_False,
            cond_false]
          exact List.mem_cons_of_mem _ (by simpa [lookupCount] using ih k hk)

lemma tally_entry_iff (vs : List String) (k : String) (c : Nat) :
    (k, c) ∈ tallyVotes vs ↔ (k ∈ vs ∧ c = vs.count k) := by
  constructor
  · intro h
    have hkey : k ∈ (tallyVotes vs).map Prod.fst :=
      List.mem_map_of_mem Prod.fst h
    have hmem : k ∈ vs := by
      rcases (tally_keys_mem vs [] k).mp hkey with h2 | h2
      · exact absurd h2 (by simp)
      · exact h2
    have hnd : ((tallyVotes vs).map Prod.fst).Nodup :=
      tally_nodup vs [] (by simp)
    have := lookup_of_mem (tallyVotes vs) hnd (k, c) h
    simp only [tallyVotes] at this
    rw [tally_lookup vs [] k] at this
    exact ⟨hmem, by simpa [lookupCount] using this⟩
  · rintro ⟨hmem, hc⟩
    have hkey : k ∈ (tallyVotes vs).map Prod.fst :=
      (tally_keys_mem vs [] k).mpr (Or.inr hmem)
    have := mem_of_key (tallyVotes vs) k hkey
    simp only [tallyVotes] at this
    rw [tally_lookup vs [] k] at this
    simpa [lookupCount, hc] using this

lemma scan_inv (es : List (String × Nat)) :
    ∀ (m0 : Nat) (cs0 : List String),
      m0 ≤ (es.foldl scanStep (m0, cs0)).1 ∧
      (∀ e ∈ es, e.2 ≤ (es.foldl scanStep (m0, cs0)).1) ∧
      ((es.foldl scanStep (m0, cs0)).1 = m0 ∨
        ∃ k, (k, (es.foldl scanStep (m0, cs0)).1) ∈ es) ∧
      (∀ k, k ∈ (es.foldl scanStep (m0, cs0)).2 ↔
        (((es.foldl scanStep (m0, cs0)).1 = m0 ∧ k ∈ cs0) ∨
          (k, (es.foldl scanStep (m0, cs0)).1) ∈ es)) := by
  induction es with
  | nil =>
      intro m0 cs0
      refine ⟨Nat.le_refl _, by simp, Or.inl rfl, ?_⟩
      intro k
      simp
  | cons e es ih =>
      intro m0 cs0
      obtain ⟨ke, ce⟩ := e
      simp only [List.foldl_cons]
      by_cases h1 : ce > m0
      · have hstep : scanStep (m0, cs0) (ke, ce) = (ce, [ke]) := by
          simp [scanStep, h1]
        rw [hstep]
        obtain ⟨i1, i2, i3, i4⟩ := ih ce [ke]
        refine ⟨by omega, ?_, ?_, ?_⟩
        · intro e2 he2
          rcases List.mem_cons.mp he2 with he2 | he2
          · rw [he2]; exact i1
          · exact i2 e2 he2
        · rcases i3 with i3 | ⟨k2, hk2⟩
          · exact Or.inr ⟨ke, by rw [i3]; exact List.mem_cons_self _ _⟩
          · exact Or.inr ⟨k2, List.mem_cons_of_mem _ hk2⟩
        · intro k
          rw [i4 k]
          constructor
          · rintro (⟨hm, hk⟩ | hm)
            · rcases List.mem_singleton.mp hk with rfl
              exact Or.inr (by rw [hm]; exact List.mem_cons_self _ _)
            · exact Or.inr (List.mem_cons_of_mem _ hm)
          · rintro (⟨hm, _⟩ | hm)
            · omega
            · rcases List.mem_cons.mp hm with hm | hm
              · have hk1 : k = ke := congrArg Prod.fst hm
                have hc1 : (List.foldl scanStep (ce, [ke]) es).1 = ce :=
                  congrArg Prod.snd hm
                refine Or.inl ⟨hc1, ?_⟩
                rw [hk1]
                exact List.mem_singleton.mpr rfl
              · exact Or.inr hm
      · by_cases h2 : ce = m0
        · have hstep : scanStep (m0, cs0) (ke, ce) = (m0, cs0 ++ [ke]) := by
            simp [scanStep, h1, h2]
          rw [hstep]
          obtain ⟨i1, i2, i3, i4⟩ := ih m0 (cs0 ++ [ke])
          refine ⟨i1, ?_, ?_, ?_⟩
          · intro e2 he2
            rcases List.mem_cons.mp he2 with he2 | he2
            · rw [he2]
              simp only []
              omega
            · exact i2 e2 he2
          · rcases i3 with i3 | ⟨k2, hk2⟩
            · exact Or.inl i3
            · exact Or.inr ⟨k2, List.mem_cons_of_mem _ hk2⟩
          · intro k
            rw [i4 k]
            constructor
            · rintro (⟨hm, hk⟩ | hm)
              · rcases List.mem_append.mp hk with hk | hk
                · exact Or.inl ⟨hm, hk⟩
                · rcases List.mem_singleton.mp hk with rfl
                  refine Or.inr (List.mem_cons.mpr (Or.inl ?_))
                  rw [hm, h2]
              · exact Or.inr (List.mem_cons_of_mem _ hm)
            · rintro (⟨hm, hk⟩ | hm)
              · exact Or.inl ⟨hm, List.mem_append.mpr (Or.inl hk)⟩
              · rcases List.mem_cons.mp hm with hm | hm
                · have hk1 : k = ke := congrArg Prod.fst hm
                  have hc1 : (List.foldl scanStep (m0, cs0 ++ [ke]) es).1 =
                      ce := congrArg Prod.snd hm
                  refine Or.inl ⟨by omega, List.mem_append.mpr (Or.inr ?_)⟩
                  rw [hk1]
                  exact List.mem_singleton.mpr rfl
                · exact Or.inr hm
        · have h3 : ce < m0 := by omega
          have hstep : scanStep (m0, cs0) (ke, ce) = (m0, cs0) := by
            simp [scanStep, h1, h2]
          rw [hstep]
          obtain ⟨i1, i2, i3, i4⟩ := ih m0 cs0
          refine ⟨i1, ?_, ?_, ?_⟩
          · intro e2 he2
            rcases List.mem_cons.mp he2 with he2 | he2
            · rw [he2]
              simp only []
              omega
            · exact i2 e2 he2
          · rcases i3 with i3 | ⟨k2, hk2⟩
            · exact Or.inl i3
            · exact Or.inr ⟨k2, List.mem_cons_of_mem _ hk2⟩
          · intro k
            rw [i4 k]
            constructor
            · rintro (⟨hm, hk⟩ | hm)
              · exact Or.inl ⟨hm, hk⟩
              · exact Or.inr (List.mem_cons_of_mem _ hm)
            · rintro (⟨hm, hk⟩ | hm)
              · exact Or.inl ⟨hm, hk⟩
              · rcases List.mem_cons.mp hm with hm | hm
                · have hc1 : (List.foldl scanStep (m0, cs0) es).1 = ce :=
                    congrArg Prod.snd hm
                  omega
                · exact Or.inr hm

lemma plurality_char (vs : List String) (k : String) :
    k ∈ (scanMax (tallyVotes vs)).2 ↔
      (k ∈ vs ∧ ∀ j, vs.count j ≤ vs.count k) := by
  simp only [scanMax]
  obtain ⟨i1, i2, i3, i4⟩ := scan_inv (tallyVotes vs) 0 []
  constructor
  · intro h
    rcases (i4 k).mp h with ⟨_, hk⟩ | hm
    · exact absurd hk (List.not_mem_nil k)
    · obtain ⟨hkvs, hkc⟩ := (tally_entry_iff vs k _).mp hm
      refine ⟨hkvs, ?_⟩
      intro j
      by_cases hj : j ∈ vs
      · have hjm : vs.count j ≤
            (List.foldl scanStep (0, []) (tallyVotes vs)).1 :=
          i2 (j, vs.count j) ((tally_entry_iff vs j _).mpr ⟨hj, rfl⟩)
        omega
      · rw [List.count_eq_zero_of_not_mem hj]
        exact Nat.zero_le _
  · rintro ⟨hkvs, hmax⟩
    have hpos : 0 < vs.count k := List.count_pos_iff.mpr hkvs
    have hup : vs.count k ≤
        (List.foldl scanStep (0, []) (tallyVotes vs)).1 :=
      i2 (k, vs.count k) ((tally_entry_iff vs k _).mpr ⟨hkvs, rfl⟩)
    rcases i3 with h0 | ⟨k2, hk2⟩
    · omega
    · obtain ⟨hk2vs, hk2c⟩ := (tally_entry_iff vs k2 _).mp hk2
      have hj2 := hmax k2
      exact (i4 k).mpr (Or.inr ((tally_entry_iff vs k _).mpr
        ⟨hkvs, by omega⟩))

lemma find_id_of_mem (ps : List Player) (t : String)
    (h : t ∈ ps.map Player.id) :
    ∃ ep, ps.find? (fun p => p.id = t) = some ep := by
  obtain ⟨p, hp, hid⟩ := List.mem_map.mp h
  have h2 : (ps.find? (fun p => p.id = t)).isSome := by
    rw [List.find?_isSome]
    exact ⟨p, hp, by simp [hid]⟩
  exact Option.isSome_iff_exists.mp h2

lemma pvrElim_noelim (g1 : Game) (cands : List String)
    (hno : ∀ t, cands = [t] → t = "none") :
    (pvrElim g1 cands).1.players = g1.players ∧
    (pvrElim g1 cands).2.1 = none := by
  rcases cands with _ | ⟨t, _ | ⟨t2, rest⟩⟩
  · exact ⟨rfl, rfl⟩
  · have ht := hno t rfl
    subst ht
    exact ⟨rfl, rfl⟩
  · exact ⟨rfl, rfl⟩

lemma pvrCore_status_of_none (g1 : Game) (cands : List String)
    (he : (pvrElim g1 cands).2.1 = none) :
    (pvrCore g1 cands).state.players.map Player.status =
      (pvrElim g1 cands).1.players.map Player.status := by
  simp only [pvrCore, he]
  rw [(pvrFinish_fields _ _ _ _).2.2.2.2, (pvrAward_fields _ _).2.2.2.2]

lemma pvrCore_status_noelim (g1 : Game) (cands : List String)
    (hno : ∀ t, cands = [t] → t = "none") :
    (pvrCore g1 cands).state.players.map Player.status =
      g1.players.map Player.status := by
  obtain ⟨hp, he⟩ := pvrElim_noelim g1 cands hno
  rw [pvrCore_status_of_none g1 cands he, hp]

lemma pvrElim_single (g1 : Game) (t : String) (p0 : Player)
    (hne : ¬ t = "none")
    (hfind : g1.players.find? (fun p => p.id = t) = some p0) :
    pvrElim g1 [t] =
      (addSystemMessage { g1 with players := updateFirst g1.players t (fun q => { q with status := PStatus.eliminated }) } (p0.name ++ " was eliminated! Role: " ++ roleStr p0.role),
       some t,
       if p0.role = some Role.imposter then some Winner.civilians
       else none) := by
  simp only [pvrElim, if_neg hne, hfind]

lemma pvrCore_status_elim (g1 : Game) (t : String) (p0 : Player)
    (hne : ¬ t = "none")
    (hfind : g1.players.find? (fun p => p.id = t) = some p0) :
    (pvrCore g1 [t]).isOk = true ∧
    (pvrCore g1 [t]).state.players.map Player.status =
      (updateFirst g1.players t
        (fun q => { q with status := PStatus.eliminated })).map
        Player.status ∧
    (p0.role = some Role.imposter →
      (pvrCore g1 [t]).state.lastRoundResult.map RoundResult.winner =
        some (some Winner.civilians)) := by
  have hel := pvrElim_single g1 t p0 hne hfind
  have hmem : t ∈ g1.players.map Player.id := by
    have h1 := List.mem_of_find?_eq_some hfind
    have h2 : p0.id = t := by simpa using List.find?_some hfind
    exact h2 ▸ List.mem_map_of_mem Player.id h1
  simp only [pvrCore, hel]
  have hids : (pvrAward (addSystemMessage { g1 with players := updateFirst g1.players t (fun q => { q with status := PStatus.eliminated }) } (p0.name ++ " was eliminated! Role: " ++ roleStr p0.role)) (if p0.role = some Role.imposter then some Winner.civilians else none)).1.players.map Player.id = g1.players.map Player.id := by
    have ha := (pvrAward_fields (addSystemMessage { g1 with players := updateFirst g1.players t (fun q => { q with status := PStatus.eliminated }) } (p0.name ++ " was eliminated! Role: " ++ roleStr p0.role)) (if p0.role = some Role.imposter then some Winner.civilians else none)).2.1
    simp only [rosterIds] at ha
    rw [ha]
    show (updateFirst g1.players t
      (fun q => { q with status := PStatus.eliminated })).map Player.id =
        g1.players.map Player.id
    exact updateFirst_id_map
      (fun q => { q with status := PStatus.eliminated }) (fun p => rfl)
      g1.players t
  obtain ⟨ep, hep⟩ := find_id_of_mem _ t (by rw [hids]; exact hmem)
  simp only [hep]
  refine ⟨?_, ?_, ?_⟩
  · rw [pvrFinish_shape]
    rfl
  · rw [(pvrFinish_fields _ _ _ _).2.2.2.2, (pvrAward_fields _ _).2.2.2.2]
    rfl
  · intro hrole
    rw [if_pos hrole] at hep ⊢
    have hsh := pvrFinish_shape (pvrAward (addSystemMessage { g1 with players := updateFirst g1.players t (fun q => { q with status := PStatus.eliminated }) } (p0.name ++ " was eliminated! Role: " ++ roleStr p0.role)) (some Winner.civilians)).1 (some ep) (pvrAward (addSystemMessage { g1 with players := updateFirst g1.players t (fun q => { q with status := PStatus.eliminated }) } (p0.name ++ " was eliminated! Role: " ++ roleStr p0.role)) (some Winner.civilians)).2 ((addSystemMessage { g1 with players := updateFirst g1.players t (fun q => { q with status := PStatus.eliminated }) } (p0.name ++ " was eliminated! Role: " ++ roleStr p0.role)).players.find? (fun p => p.role = some Role.imposter))
    have hw2 : (pvrAward (addSystemMessage { g1 with players := updateFirst g1.players t (fun q => { q with status := PStatus.eliminated }) } (p0.name ++ " was eliminated! Role: " ++ roleStr p0.role)) (some Winner.civilians)).2 = some Winner.civilians := rfl
    rw [hw2] at hsh
    exact (pvrFinish_some _ (some ep) Winner.civilians _ _ _ hsh).1

/-- C5: entering vote resolution, the candidate list computed by the scan is
exactly the plurality target set of the vote tally (the voted-for ids whose
vote count is maximal); when that set is a single id other than the abstain
sentinel "none" naming a roster player, resolution completes, exactly the
first roster player with that id has their status flipped to eliminated (all
other statuses unchanged), and if that player's role was imposter the
recorded winner is civilians; when the set is not such a singleton (a tie,
no votes, or a sole abstain target), no player's status changes. -/
theorem c5_vote_resolution (g : Game) :
    (∀ k, k ∈ (scanMax (tallyVotes (g.votes.map Prod.snd))).2 ↔
        (k ∈ g.votes.map Prod.snd ∧
          ∀ j, countTarget g.votes j ≤ countTarget g.votes k)) ∧
    ((∀ t, (scanMax (tallyVotes (g.votes.map Prod.snd))).2 = [t] →
        t = "none") →
      (processVotingResultsG g).state.players.map Player.status =
        g.players.map Player.status) ∧
    (∀ t p0, (scanMax (tallyVotes (g.votes.map Prod.snd))).2 = [t] →
      ¬ t = "none" →
      g.players.find? (fun p => p.id = t) = some p0 →
      ((processVotingResultsG g).isOk = true ∧
        (processVotingResultsG g).state.players.map Player.status =
          (updateFirst g.players t
            (fun q => { q with status := PStatus.eliminated })).map
            Player.status ∧
        (p0.role = some Role.imposter →
          (processVotingResultsG g).state.lastRoundResult.map
            RoundResult.winner = some (some Winner.civilians)))) := by
  refine ⟨?_, ?_, ?_⟩
  · intro k
    simpa [countTarget] using plurality_char (g.votes.map Prod.snd) k
  · intro hno
    simp only [processVotingResultsG]
    exact pvrCore_status_noelim _ _ hno
  · intro t p0 hcs hne hfind
    simp only [processVotingResultsG]
    rw [hcs]
    exact pvrCore_status_elim { g with gamePhase := Phase.results } t p0
      hne hfind

theorem c5_vote_resolution_witness :
    (processVotingResultsG u19).state.players.map Player.status =
      (updateFirst u19.players "a"
        (fun q => { q with status := PStatus.eliminated })).map
        Player.status ∧
    (processVotingResultsG u19).state.lastRoundResult.map
      RoundResult.winner = some (some Winner.civilians) :=
  ⟨((c5_vote_resolution u19).2.2 "a"
      ⟨"a", "Alice", some Role.imposter, some "pear", PStatus.active, 15,
        true, true, true⟩
      (by decide) (by decide) (by decide)).2.1,
   ((c5_vote_resolution u19).2.2 "a"
      ⟨"a", "Alice", some Role.imposter, some "pear", PStatus.active, 15,
        true, true, true⟩
      (by decide) (by decide) (by decide)).2.2 (by decide)⟩

/-! ## C4: the turn-pointer invariant -/

lemma TurnInv_transport {g g2 : Game} (h : TurnInv g)
    (hph : g2.gamePhase = g.gamePhase) (hto : g2.turnOrder = g.turnOrder)
    (hidx : g2.currentTurnIndex = g.currentTurnIndex) : TurnInv g2 := by
  obtain ⟨h1, h2⟩ := h
  constructor
  · intro hd
    rw [hph] at hd
    rw [hto, hidx]
    exact h1 hd
  · intro hv
    rw [hph] at hv
    rw [hidx]
    exact h2 hv

lemma TurnInv_of_phase {g : Game} (h1 : ¬ g.gamePhase = Phase.description)
    (h2 : ¬ g.gamePhase = Phase.voting) : TurnInv g :=
  ⟨fun h => absurd h h1, fun h => absurd h h2⟩

lemma findEligibleAux_lt (ps : List Player) (order : List String)
    (fuel : Nat) : ∀ i j, findEligibleAux ps order i fuel = some j →
      j < order.length := by
  induction fuel with
  | zero => intro i j h; exact Option.noConfusion h
  | succ fuel ih =>
      intro i j h
      simp only [findEligibleAux] at h
      cases hg : order.get? i with
      | none => rw [hg] at h; exact Option.noConfusion h
      | some pid =>
          simp only [hg] at h
          cases hf : ps.find? (fun p => p.id = pid) with
          | none => simp only [hf] at h; exact ih (i + 1) j h
          | some p =>
              simp only [hf] at h
              split at h
              · injection h with h1
                subst h1
                exact (List.get?_eq_some.mp hg).1
              · exact ih (i + 1) j h

lemma advanceTurn_inv (g : Game) (hph : g.gamePhase = Phase.description) :
    TurnInv (advanceTurnG g) := by
  simp only [advanceTurnG]
  cases hf : findEligibleAux g.players g.turnOrder
      (g.currentTurnIndex + 1).toNat g.turnOrder.length with
  | some i =>
      have hlt := findEligibleAux_lt g.players g.turnOrder _ _ i hf
      constructor
      · intro _
        constructor
        · exact Int.ofNat_nonneg i
        · show (i : Int) < (g.turnOrder.length : Int)
          exact_mod_cast hlt
      · intro hv
        exact absurd (hph.symm.trans hv) (by decide)
  | none =>
      constructor
      · intro hd
        exact Phase.noConfusion hd
      · intro _
        rfl

lemma startRound_TurnInv (g : Game) (pair : String × String) (impIdx : Nat)
    (perm : List String → List String) :
    TurnInv (startRoundG g pair impIdx perm) := by
  simp only [startRoundG]
  refine TurnInv_transport (advanceTurn_inv _ ?_) (by rfl) (by rfl) (by rfl)
  split <;> rfl

lemma TurnInv_pvr (gx : Game) : TurnInv (processVotingResultsG gx).state := by
  rcases (pvr_fields gx).2.2.1 with hph2 | hph2
  · exact TurnInv_of_phase (by simp [hph2]) (by simp [hph2])
  · exact TurnInv_of_phase (by simp [hph2]) (by simp [hph2])

lemma TurnInv_create (code pid name : String) :
    TurnInv (createGameG code pid name) :=
  ⟨fun h => Phase.noConfusion h, fun h => Phase.noConfusion h⟩

lemma TurnInv_join (g : Game) (h : TurnInv g) (n : String)
    (prev : Option String) (newId : String) :
    TurnInv (joinGameG g n prev newId).state := by
  have hnew : TurnInv (joinGameG g n none newId).state := by
    refine TurnInv_transport h ?_ ?_ ?_ <;>
      simp only [joinGameG, JoinOut.state, addSystemMessage] <;>
      split <;> rfl
  cases prev with
  | none => exact hnew
  | some prev =>
      cases hfind : g.players.find? (fun p => p.id = prev) with
      | none =>
          have heq : joinGameG g n (some prev) newId =
              joinGameG g n none newId := by
            simp only [joinGameG, hfind]
          rw [heq]
          exact hnew
      | some existing =>
          by_cases hname : existing.name = n
          · refine TurnInv_transport h ?_ ?_ ?_ <;>
              simp only [joinGameG, hfind, JoinOut.state, if_pos hname] <;>
              split <;> rfl
          · have heq : joinGameG g n (some prev) newId =
                joinGameG g n none newId := by
              simp only [joinGameG, hfind, if_neg hname]
            rw [heq]
            exact hnew

lemma TurnInv_startGame (g : Game) (pid : String) (pair : String × String)
    (impIdx : Nat) (perm : List String → List String) (h : TurnInv g) :
    TurnInv (startGameG g pid pair impIdx perm).state := by
  simp only [startGameG]
  split
  · exact TurnInv_transport h rfl rfl rfl
  · split
    · exact TurnInv_transport h rfl rfl rfl
    · exact startRound_TurnInv _ pair impIdx perm

lemma TurnInv_newGame (g : Game) (pid : String) (pair : String × String)
    (impIdx : Nat) (perm : List String → List String) :
    TurnInv (startNewGameG g pid pair impIdx perm).state :=
  startRound_TurnInv _ pair impIdx perm

lemma TurnInv_describe (g : Game) (h : TurnInv g) (pid text : String) :
    TurnInv (submitDescriptionG g pid text).state := by
  simp only [submitDescriptionG]
  split
  · exact TurnInv_transport h rfl rfl rfl
  · rename_i player hfind
    by_cases hst : player.status = PStatus.disconnected
    · simp only [if_pos hst]
      split
      · exact TurnInv_transport h rfl rfl rfl
      · split
        · exact TurnInv_transport h rfl rfl rfl
        · split
          · exact TurnInv_transport h rfl rfl rfl
          · rename_i hph _ _
            exact advanceTurn_inv _ (not_not.mp hph)
    · simp only [if_neg hst]
      split
      · exact TurnInv_transport h rfl rfl rfl
      · split
        · exact TurnInv_transport h rfl rfl rfl
        · split
          · exact TurnInv_transport h rfl rfl rfl
          · rename_i hph _ _
            exact advanceTurn_inv _ (not_not.mp hph)

lemma TurnInv_vote (g : Game) (h : TurnInv g) (vid cid : String) :
    TurnInv (submitVoteG g vid cid).state := by
  simp only [submitVoteG]
  split
  · exact TurnInv_transport h rfl rfl rfl
  · split
    · exact TurnInv_transport h rfl rfl rfl
    · rename_i hphase voter hfind
      by_cases hst : voter.status = PStatus.disconnected
      · simp only [if_pos hst]
        split
        · exact TurnInv_transport h rfl rfl rfl
        · split
          · exact TurnInv_transport h rfl rfl rfl
          · split
            · exact TurnInv_pvr _
            · exact TurnInv_transport h rfl rfl rfl
      · simp only [if_neg hst]
        split
        · exact TurnInv_transport h rfl rfl rfl
        · split
          · exact TurnInv_transport h rfl rfl rfl
          · split
            · exact TurnInv_pvr _
            · exact TurnInv_transport h rfl rfl rfl

lemma TurnInv_rename (g : Game) (h : TurnInv g) (pid newName : String) :
    TurnInv (updatePlayerNameG g pid newName).state := by
  simp only [updatePlayerNameG]
  split
  · exact TurnInv_transport h rfl rfl rfl
  · split
    · exact TurnInv_transport h rfl rfl rfl
    · exact TurnInv_transport h rfl rfl rfl

lemma TurnInv_chat (g : Game) (h : TurnInv g) (pid text : String) :
    TurnInv (sendChatG g pid text) := by
  simp only [sendChatG]
  split
  · exact h
  · split
    · exact h
    · exact TurnInv_transport h rfl rfl rfl

lemma TurnInv_leave (g : Game) (h : TurnInv g) (pid : String) :
    TurnInv (leaveImmediateG g pid) := by
  simp only [leaveImmediateG]
  split
  · exact h
  · exact TurnInv_transport h rfl rfl rfl

lemma TurnInv_lobbyTimer (g : Game) (h : TurnInv g) (pid : String) :
    TurnInv (lobbyGraceFireG g pid) := by
  simp only [lobbyGraceFireG]
  split
  · exact h
  · split
    · split
      · split
        · exact TurnInv_transport h rfl rfl rfl
        · exact TurnInv_transport h rfl rfl rfl
      · exact TurnInv_transport h rfl rfl rfl
    · exact h

lemma TurnInv_wincheck (p : Player) (g3 : Game) (h : TurnInv g3) :
    TurnInv (inGameWinCheck p g3).state := by
  simp only [inGameWinCheck]
  split
  · exact TurnInv_of_phase (fun hh => Phase.noConfusion hh)
      (fun hh => Phase.noConfusion hh)
  · split
    · split
      · exact TurnInv_of_phase (fun hh => Phase.noConfusion hh)
          (fun hh => Phase.noConfusion hh)
      · exact h
    · exact h

lemma TurnInv_gameTimer (g : Game) (h : TurnInv g) (pid : String) :
    TurnInv (inGameGraceFireG g pid).state := by
  have hpvr2 : ∀ (gx : Game) (r : OpResult), processVotingResultsG gx = r →
      TurnInv r.state := fun gx r hr => by
    rw [← hr]
    exact TurnInv_pvr gx
  have hcase : ∀ (g2x : Game) (r : OpResult),
      (if g2x.gamePhase = Phase.voting then
        (if g2x.votes.length ≥ activeDiscCount g2x.players ∧
            0 < activeDiscCount g2x.players then
          processVotingResultsG g2x
        else OpResult.ok g2x "update")
      else OpResult.ok g2x "update") = r →
      TurnInv g2x → TurnInv r.state := by
    intro g2x r hr h2
    split at hr
    · split at hr
      · exact hpvr2 _ _ hr
      · rw [← hr]
        exact h2
    · rw [← hr]
      exact h2
  have hg2inv : ∀ (ga : Game) (t : String) (pid2 : String), TurnInv ga →
      TurnInv (if ga.gamePhase = Phase.description ∧
          listGetI ga.turnOrder ga.currentTurnIndex = some pid2 then
        advanceTurnG (addSystemMessage ga t) else ga) := by
    intro ga t pid2 hga
    split
    · rename_i hc
      exact advanceTurn_inv _ hc.1
    · exact hga
  simp only [inGameGraceFireG]
  split
  · exact h
  · rename_i p hfind
    split
    · exact h
    · split
      · exact TurnInv_transport h rfl rfl rfl
      · split
        · rename_i gc heq
          exact hcase _ _ heq (hg2inv _ _ _ (TurnInv_transport h rfl rfl rfl))
        · rename_i gc m heq
          exact hcase _ _ heq (hg2inv _ _ _ (TurnInv_transport h rfl rfl rfl))
        · rename_i g3 e heq
          exact TurnInv_wincheck p g3
            (hcase _ _ heq (hg2inv _ _ _ (TurnInv_transport h rfl rfl rfl)))

/-- C4 (amended): at every reachable committed state, during the description
phase `currentTurnIndex` is a valid (nonnegative, in-range) index into
`turnOrder`, and during the voting phase it equals the sentinel `-1`; this is
the part of the claimed invariant that survives (the roster-membership and
active-or-disconnected parts are refuted by the counterexample). -/
theorem c4_amended (g : Game) (h : Reachable g) : TurnInv g := by
  induction h with
  | init code pid name => exact TurnInv_create code pid name
  | step _ hs ih =>
      cases hs with
      | join n prev newId => exact TurnInv_join _ ih n prev newId
      | start pid pair impIdx perm =>
          exact TurnInv_startGame _ pid pair impIdx perm ih
      | describe pid text => exact TurnInv_describe _ ih pid text
      | vote vid cid => exact TurnInv_vote _ ih vid cid
      | newGame pid pair impIdx perm =>
          exact TurnInv_newGame _ pid pair impIdx perm
      | rename pid newName => exact TurnInv_rename _ ih pid newName
      | chat pid text => exact TurnInv_chat _ ih pid text
      | roundTimer pair impIdx perm =>
          exact startRound_TurnInv _ pair impIdx perm
      | leave pid => exact TurnInv_leave _ ih pid
      | lobbyTimer pid => exact TurnInv_lobbyTimer _ ih pid
      | gameTimer pid => exact TurnInv_gameTimer _ ih pid

theorem c4_amended_witness : TurnInv (createGameG "ROOM42" "a" "Alice") :=
  c4_amended (createGameG "ROOM42" "a" "Alice")
    (Reachable.init "ROOM42" "a" "Alice")
